import Mathlib

/-!
Verification development for the resume template generator
(`resume_template_generator.py` / `process_resume.py`).

The generator fills an in-memory spreadsheet grid from a structured resume
record.  Pure string/date logic is translated directly from the Python
source; the worksheet itself is the external spreadsheet library's object
(not part of the repository's sources), so the grid and its `insert_rows`
primitive are modelled from the specification's Grid Model contract.

Conventions of the embedding:
* Python strings are Lean `String`s; where character-level reasoning is
  needed we work on `String.data : List Char`.
* Python's `\d` (used only on date text) is modelled as an ASCII digit and
  `str.strip` as removal of ASCII whitespace; the repository only ever
  feeds it ASCII/CJK date text, where the two agree.
* JSON values reaching a cell are modelled by `Value` (null, string,
  boolean, list); numbers do not occur in the generator's writes.
-/

namespace Resume

/-- A JSON-ish Python value as it reaches the cell writers. -/
inductive Value where
  | vnone : Value
  | vstr : String → Value
  | vbool : Bool → Value
  | vlist : List Value → Value

deriving Repr

open Value

/-- Python truthiness for the values above (`if value:`). -/
def truthy : Value → Bool
  | vnone => false
  | vstr s => decide (s ≠ "")
  | vbool b => b
  | vlist l => !l.isEmpty

/-- Python `value == s` for a string literal `s` (non-strings compare unequal). -/
def pyEqStr (v : Value) (s : String) : Bool :=
  match v with
  | vstr t => decide (t = s)
  | _ => false

/-- A single apostrophe character, written as an escape. -/
def quoteCh : String := "\x27"

mutual

/-- Python `str(value)` restricted to the values above. -/
def pyStr : Value → String
  | vnone => "None"
  | vstr s => s
  | vbool b => if b then "True" else "False"
  | vlist l => "[" ++ String.intercalate ", " (pyReprList l) ++ "]"

/-- Python `repr` of each element of a list (used by `str` of a list). -/
def pyReprList : List Value → List String
  | [] => []
  | v :: vs => pyRepr v :: pyReprList vs

/-- Python `repr(value)` restricted to the values above. -/
def pyRepr : Value → String
  | vnone => "None"
  | vstr s => quoteCh ++ s ++ quoteCh
  | vbool b => if b then "True" else "False"
  | vlist l => "[" ++ String.intercalate ", " (pyReprList l) ++ "]"
end

/-- The placeholder token written for missing data (`【待补充】`). -/
def PH : String := "【待补充】"

/-! ## Date normalizer (`_format_date`, lines 50-104) -/

/-- ASCII approximation of the whitespace removed by Python `str.strip()`. -/
def isSpaceC (c : Char) : Bool :=
  c = ' ' || c = '\t' || c = '\n' || c = '\r' || c = '\x0b' || c = '\x0c'

/-- `str.strip()` on the character list. -/
def stripChars (l : List Char) : List Char :=
  ((l.dropWhile isSpaceC).reverse.dropWhile isSpaceC).reverse

/-- Matcher for the anchored regex `^\d{4}-\d{2}-\d{2}$`. -/
def mYMD : List Char → Bool
  | [a, b, c, d, h1, e, f, h2, g, h] =>
    a.isDigit && b.isDigit && c.isDigit && d.isDigit && decide (h1 = '-') &&
    e.isDigit && f.isDigit && decide (h2 = '-') && g.isDigit && h.isDigit
  | _ => false

/-- Matcher for the anchored regex `^\d{4}-\d{2}$`. -/
def mYM : List Char → Bool
  | [a, b, c, d, h1, e, f] =>
    a.isDigit && b.isDigit && c.isDigit && d.isDigit && decide (h1 = '-') &&
    e.isDigit && f.isDigit
  | _ => false

/-- Matcher for the anchored regex `^\d{4}-\d{1}$`. -/
def mYM1 : List Char → Bool
  | [a, b, c, d, h1, e] =>
    a.isDigit && b.isDigit && c.isDigit && d.isDigit && decide (h1 = '-') &&
    e.isDigit
  | _ => false

/-- Matcher for the anchored regex `^\d{4}$`. -/
def mY : List Char → Bool
  | [a, b, c, d] => a.isDigit && b.isDigit && c.isDigit && d.isDigit
  | _ => false

/-- Greedy run of leading digits and the remaining suffix (models `\d+` steps
of the anchored CJK date regexes). -/
def takeDigs : List Char → List Char × List Char
  | [] => ([], [])
  | c :: cs =>
    if c.isDigit then
      let p := takeDigs cs
      (c :: p.1, p.2)
    else ([], c :: cs)

/-- Parser equivalent to the pair of anchored regexes
`^(\d{4})年(\d{1,2})月(\d{1,2})日?$` and `^(\d{4})年(\d{1,2})月$`
(both fully anchored, so greedy matching coincides with taking the maximal
digit run at each step).  Returns year digits, month digits, and the day
digits when the day group is present. -/
def parseCN (l : List Char) : Option (List Char × List Char × Option (List Char)) :=
  let yp := takeDigs l
  if yp.1.length = 4 then
    match yp.2 with
    | '年' :: r2 =>
      let mp := takeDigs r2
      if mp.1.length = 1 || mp.1.length = 2 then
        match mp.2 with
        | '月' :: r4 =>
          match r4 with
          | [] => some (yp.1, mp.1, none)
          | _ :: _ =>
            let dp := takeDigs r4
            if (dp.1.length = 1 || dp.1.length = 2) &&
               (dp.2.isEmpty || dp.2 = ['日']) then
              some (yp.1, mp.1, some dp.1)
            else none
        | _ => none
      else none
    | _ => none
  else none

/-- Python `month.zfill(2)`. -/
def zfill2 (m : List Char) : List Char :=
  List.replicate (2 - m.length) '0' ++ m

/-- The pattern dispatch of `_format_date` on the stripped character list
(lines 74-104): each recognized form is rewritten to `YYYY-MM-DD`,
anything else is returned unchanged. -/
def fmtCore (l : List Char) : List Char :=
  if mYMD l then l
  else if mYM l then l ++ ['-', '0', '1']
  else if mYM1 l then l.take 5 ++ ['0'] ++ l.drop 5 ++ ['-', '0', '1']
  else if mY l then l ++ ['-', '0', '1', '-', '0', '1']
  else
    match parseCN l with
    | some (y, m, some d) => y ++ ['-'] ++ zfill2 m ++ ['-'] ++ zfill2 d
    | some (y, m, none) => y ++ ['-'] ++ zfill2 m ++ ['-', '0', '1']
    | none => l

/-- `_format_date` (lines 50-104): `None`/blank input yields `None`;
otherwise the input is stripped and the pattern dispatch applied. -/
def format_date : Option String → Option String
  | none => none
  | some s =>
    let t := stripChars s.data
    if t.isEmpty then none else some (String.mk (fmtCore t))

/-- The union of the recognized date patterns of `_format_date`. -/
def recognized (l : List Char) : Bool :=
  mYMD l || mYM l || mYM1 l || mY l || (parseCN l).isSome

/-! ## Grid model

The worksheet object itself comes from the external spreadsheet library and
is not part of the repository's sources; only its callers are.  It is
therefore modelled from the spec's Grid Model contract (§3, §4.1). -/

/-- A merged rectangular range (`min_row`, `min_col`, `max_row`, `max_col`). -/
structure Rect where
  r0 : Nat
  c0 : Nat
  r1 : Nat
  c1 : Nat

deriving Repr, DecidableEq

/-- An opaque style bundle.  `fill` and `font` are the two components the
generator mutates for highlighting; `rest` stands for the border /
number-format / protection / alignment attributes, which are only ever
copied wholesale by `_copy_row_style`. -/
structure Style where
  fill : Nat
  font : Nat
  rest : Nat

deriving Repr, DecidableEq

/-- Default style components of a fresh cell. -/
def defStyle : Style := ⟨0, 0, 0⟩

/-- The highlight fill (`FFFF00` solid) as an opaque style id. -/
def hlFill : Nat := 100

/-- The highlight font (`FF0000` bold) as an opaque style id. -/
def hlFont : Nat := 100

/-- A cell: a value plus an optional explicit style
(`style = none` models `has_style = False`). -/
structure Cell where
  value : Value
  style : Option Style

deriving Repr

/-- A fresh, never-written cell. -/
def defCell : Cell := ⟨Value.vnone, none⟩

/-- Modelled from the spec: the Grid Model (§3) — a cell field, the set of
merged rectangles, and the row bound.  The cell field is total; untouched
coordinates hold `defCell`. -/
structure Grid where
  cell : Nat → Nat → Cell
  merges : List Rect
  maxRow : Nat

/-- Assign a cell's value (`ws.cell(row=r, column=c).value = v`). -/
def Grid.setVal (g : Grid) (r c : Nat) (v : Value) : Grid :=
  { g with cell := fun r' c' =>
      if r' = r ∧ c' = c then { g.cell r c with value := v } else g.cell r' c' }

/-- Apply the highlight to a cell's style, keeping its other attributes
(`cell.fill = HIGHLIGHT_FILL; cell.font = HIGHLIGHT_FONT`). -/
def hlStyle (cl : Cell) : Cell :=
  { cl with style := some { (cl.style.getD defStyle) with fill := hlFill, font := hlFont } }

/-- Assign the highlight fill and font to one cell. -/
def Grid.setHL (g : Grid) (r c : Nat) : Grid :=
  { g with cell := fun r' c' =>
      if r' = r ∧ c' = c then hlStyle (g.cell r c) else g.cell r' c' }

/-- Whether a cell currently carries the highlight fill and font. -/
def highlighted (cl : Cell) : Bool :=
  match cl.style with
  | some s => s.fill = hlFill && s.font = hlFont
  | none => false

/-- How a row insertion at `a` relocates one merge rectangle: rectangles
whose top row is at or below the insertion point move down by `cnt`. -/
def shiftRect (a cnt : Nat) (r : Rect) : Rect :=
  if a ≤ r.r0 then ⟨r.r0 + cnt, r.c0, r.r1 + cnt, r.c1⟩ else r

/-- Modelled from the spec: `insertRows(at, count)` of the Grid Model (§4.1)
— every cell at row ≥ `a` shifts down by `cnt`, the freed rows are fresh,
and every merge rectangle with `row0 ≥ a` shifts down by `cnt`. -/
def Grid.insertRows (g : Grid) (a cnt : Nat) : Grid :=
  { cell := fun r c =>
      if a ≤ r then (if r < a + cnt then defCell else g.cell (r - cnt) c)
      else g.cell r c
    merges := g.merges.map (shiftRect a cnt)
    maxRow := g.maxRow + cnt }

/-- `ws.merge_cells(...)`: record one more merged range. -/
def Grid.mergeCells (g : Grid) (r : Rect) : Grid :=
  { g with merges := g.merges ++ [r] }

/-- Generator state: the worksheet plus `self.row_offset`. -/
structure Gen where
  g : Grid
  off : Nat

/-! ## Field writer (`_fill_cell`, lines 110-140) -/

/-- The `value is None or value == "" or value == []` test of `_fill_cell`. -/
def absentish : Value → Bool
  | vnone => true
  | vstr s => decide (s = "")
  | vlist l => l.isEmpty
  | vbool _ => false

/-- `_format_date` lifted to a cell value.  Only reached under
`is_date and value`, and date fields are strings or null by the input
contract (a non-string here would raise in the source). -/
def valFormatDate : Value → Value
  | vstr s =>
    match format_date (some s) with
    | some r => vstr r
    | none => vnone
  | v => v

/-- `_fill_cell(row, col, value, apply_offset, is_date)` (lines 110-140). -/
def fill_cell (st : Gen) (row col : Nat) (v : Value) (applyOffset isDate : Bool) : Gen :=
  let r := if applyOffset then row + st.off else row
  let v := if isDate && truthy v then valFormatDate v else v
  if absentish v then
    ⟨(st.g.setVal r col (vstr PH)).setHL r col, st.off⟩
  else
    match v with
    | vlist l =>
      let g := st.g.setVal r col
        (vstr (if l.isEmpty then PH else String.intercalate "、" (l.map pyStr)))
      ⟨if l.isEmpty then g.setHL r col else g, st.off⟩
    | vbool b => ⟨st.g.setVal r col (vstr (if b then "是" else "否")), st.off⟩
    | v' => ⟨st.g.setVal r col (vstr (pyStr v')), st.off⟩

/-- `_copy_row_style(source_row, target_row)` (lines 142-154): for columns
1-15, copy the whole style bundle when the source cell has an explicit
style.  The Python loop reads only row `src`, which its callers never
write (`src ≠ dst` at every call site), so the per-column loop equals this
simultaneous update. -/
def copyRowStyle (g : Grid) (src dst : Nat) : Grid :=
  { g with cell := fun r c =>
      if r = dst ∧ 1 ≤ c ∧ c ≤ 15 ∧ (g.cell src c).style.isSome then
        { g.cell dst c with style := (g.cell src c).style }
      else g.cell r c }

/-- Sequential style copies `for i in range(cnt): _copy_row_style(src, dst+i)`. -/
def copyStyleRows (g : Grid) (src dst : Nat) : Nat → Grid
  | 0 => g
  | k + 1 => copyStyleRows (copyRowStyle g src dst) src (dst + 1) k

/-- Sequential style copies `for i in range(cnt): _copy_row_style(src+i, dst+i)`
(used by `_insert_doctoral_section` to clone the graduate block's shape). -/
def copyBlockStyle (g : Grid) (src dst : Nat) : Nat → Grid
  | 0 => g
  | k + 1 => copyBlockStyle (copyRowStyle g src dst) (src + 1) (dst + 1) k

/-! ## The resume record

Field values are modelled per the input contract (§3/§6): date fields are
string-or-null (`Option String`), free-form fields are arbitrary JSON
values (`Value`); a missing key and an explicit `null` both read back as
`None` through `dict.get`, i.e. `Value.vnone` / `none`. -/

/-- One entry of the `education` list. -/
structure EduEntry where
  degree_type : String
  enrollment_date : Option String
  graduation_date : Option String
  university : Value
  major : Value
  diploma_number : Value
  diploma_verification_code : Value
  degree_number : Value
  degree_verification_code : Value

/-- The empty education entry (`{}` — every `.get` returns `None`). -/
def emptyEdu : EduEntry :=
  ⟨"", none, none, Value.vnone, Value.vnone, Value.vnone, Value.vnone, Value.vnone, Value.vnone⟩

/-- One entry of the `work_experience` list. -/
structure WorkEntry where
  start_date : Option String
  end_date : Option String
  company : Value
  position : Value
  is_psbc_independent_dev : Value

/-- One entry of the `project_experience` list. -/
structure ProjEntry where
  start_date : Option String
  end_date : Option String
  project_name : Value
  description : Value
  role : Value
  is_psbc_independent_dev : Value

/-- The `basic_info` sub-record. -/
structure BasicInfo where
  name : Value
  supplier : Value

/-- The `personal_info` sub-record. -/
structure PersonalInfo where
  id_card_number : Value
  birth_date : Option String
  phone : Value
  first_work_date : Option String
  first_it_work_date : Option String
  highest_education : Value
  contract_level : Value

/-- The `technical_skills` sub-record. -/
structure Skills where
  programming_languages : Value
  skills : Value
  certifications : Value

/-- The structured resume record produced by the inference collaborator. -/
structure ResumeData where
  basic_info : BasicInfo
  personal_info : PersonalInfo
  education : List EduEntry
  work_experience : List WorkEntry
  project_experience : List ProjEntry
  technical_skills : Skills

/-- An `Option String` viewed as the cell value `_fill_cell` receives. -/
def optV : Option String → Value
  | some s => Value.vstr s
  | none => Value.vnone

/-! ## Section fillers -/

/-- `fill_basic_info` (lines 169-176). -/
def fill_basic_info (b : BasicInfo) (st : Gen) : Gen :=
  let st := fill_cell st 3 2 b.name true false
  fill_cell st 3 4 b.supplier true false

/-- `fill_personal_info` (lines 178-195). -/
def fill_personal_info (p : PersonalInfo) (st : Gen) : Gen :=
  let st := fill_cell st 5 2 p.id_card_number true false
  let st := fill_cell st 7 2 (optV p.birth_date) true true
  let st := fill_cell st 8 2 p.phone true false
  let st := fill_cell st 9 2 (optV p.first_work_date) true true
  let st := fill_cell st 10 2 (optV p.first_it_work_date) true true
  let st := fill_cell st 11 2 p.highest_education true false
  fill_cell st 12 2 p.contract_level true false

/-- `fill_technical_skills` (lines 536-548): base row 41. -/
def fill_technical_skills (sk : Skills) (st : Gen) : Gen :=
  let st := fill_cell st 42 2 sk.programming_languages true false
  let st := fill_cell st 43 2 sk.skills true false
  fill_cell st 44 2 sk.certifications true false

/-- `"本科" in degree_type` etc.: the classification of `fill_education`
(lines 206-213), folded over the list in order — a later entry of the same
tier overwrites an earlier one. -/
def leadsWith : List Char → List Char → Bool
  | [], _ => true
  | _ :: _, [] => false
  | a :: as, b :: bs => a = b && leadsWith as bs

/-- Substring containment on character lists (Python `needle in hay`). -/
def hasSubChars (needle : List Char) : List Char → Bool
  | [] => needle.isEmpty
  | c :: cs => leadsWith needle (c :: cs) || hasSubChars needle cs

/-- Python `needle in hay` on strings. -/
def hasSub (needle hay : String) : Bool :=
  hasSubChars needle.data hay.data

/-- One step of the `for edu in education_list` classification loop. -/
def classifyStep (acc : Option EduEntry × Option EduEntry × Option EduEntry)
    (e : EduEntry) : Option EduEntry × Option EduEntry × Option EduEntry :=
  if hasSub "本科" e.degree_type then (some e, acc.2.1, acc.2.2)
  else if hasSub "硕士" e.degree_type then (acc.1, some e, acc.2.2)
  else if hasSub "博士" e.degree_type then (acc.1, acc.2.1, some e)
  else acc

/-- The full classification: (undergraduate, master, doctoral). -/
def classify (edus : List EduEntry) :
    Option EduEntry × Option EduEntry × Option EduEntry :=
  edus.foldl classifyStep (none, none, none)

/-- `_fill_undergraduate` (lines 234-249): rows 14-20. -/
def fill_undergraduate (e : EduEntry) (st : Gen) : Gen :=
  let st := fill_cell st 14 2 (optV e.enrollment_date) true true
  let st := fill_cell st 14 4 e.university true false
  let st := fill_cell st 15 2 (optV e.graduation_date) true true
  let st := fill_cell st 15 4 e.major true false
  let st := fill_cell st 16 2 e.diploma_number true false
  let st := fill_cell st 17 2 e.diploma_verification_code true false
  let st := fill_cell st 19 2 e.degree_number true false
  fill_cell st 20 2 e.degree_verification_code true false

/-- `_fill_graduate` (lines 251-273): base row 22; when the block is reused
for a lone doctorate the title cell is relabelled. -/
def fill_graduate (e : EduEntry) (isDoctorLabel : Bool) (st : Gen) : Gen :=
  let st : Gen :=
    if isDoctorLabel then ⟨st.g.setVal (22 + st.off) 1 (vstr "博士学历"), st.off⟩
    else st
  let st := fill_cell st 23 2 (optV e.enrollment_date) true true
  let st := fill_cell st 23 4 e.university true false
  let st := fill_cell st 24 2 (optV e.graduation_date) true true
  let st := fill_cell st 24 4 e.major true false
  let st := fill_cell st 25 2 e.diploma_number true false
  let st := fill_cell st 26 2 e.diploma_verification_code true false
  let st := fill_cell st 28 2 e.degree_number true false
  fill_cell st 29 2 e.degree_verification_code true false

/-- The bespoke null-check of `_insert_doctoral_section`'s data loop
(`value is None or value == ""`). -/
def docAbsent : Value → Bool
  | vnone => true
  | vstr s => decide (s = "")
  | _ => false

/-- Write one `(row, col, value)` triple of the doctoral data loop
(lines 375-382): placeholder plus highlight on null/empty, raw value otherwise. -/
def docWrite (g : Grid) (r c : Nat) (v : Value) : Grid :=
  if docAbsent v then (g.setVal r c (vstr PH)).setHL r c
  else g.setVal r c v

/-- The value the doctoral data loop leaves in a cell. -/
def docValue (v : Value) : Value :=
  if docAbsent v then vstr PH else v

/-- `_insert_doctoral_section` (lines 275-382). -/
def insert_doctoral_section (e : EduEntry) (st : Gen) : Gen :=
  let insertRow := 31 + st.off
  let numRows := 9
  let hdrRow := insertRow + numRows + 1
  let g := st.g.insertRows insertRow numRows
  let off := st.off + numRows
  -- unmerge sweep: ranges starting at the shifted header row, spanning col 1 to ≥ 3
  let keep : Rect → Bool :=
    fun mr => !(decide (mr.r0 = hdrRow) && decide (mr.c0 = 1) && decide (3 ≤ mr.c1))
  let g : Grid := { g with merges := g.merges.filter keep }
  let g := g.mergeCells ⟨hdrRow, 5, hdrRow, 6⟩
  let g := g.setVal hdrRow 1 (vstr "工作开始日期（年月日）")
  let g := g.setVal hdrRow 2 (vstr "工作结束日期（年月日）")
  let g := g.setVal hdrRow 3 (vstr "单位名称")
  let g := g.setVal hdrRow 4 (vstr "岗位/职务")
  let g := g.setVal hdrRow 5 (vstr "是否邮储银行自主研发工作经验")
  let g := copyBlockStyle g 22 insertRow numRows
  let g := g.mergeCells ⟨insertRow, 1, insertRow, 6⟩
  let g := g.setVal insertRow 1 (vstr "博士学历")
  let g := g.setVal (insertRow + 1) 1 (vstr "入学时间")
  let g := g.setVal (insertRow + 1) 3 (vstr "毕业院校")
  let g := g.setVal (insertRow + 2) 1 (vstr "毕业时间")
  let g := g.setVal (insertRow + 2) 3 (vstr "专业")
  let g := g.setVal (insertRow + 3) 1 (vstr "毕业证编号")
  let g := g.setVal (insertRow + 4) 1 (vstr "毕业证学信网在线验证码")
  let g := g.setVal (insertRow + 6) 1 (vstr "学位证编号")
  let g := g.setVal (insertRow + 7) 1 (vstr "学位证学信网在线验证码")
  let g := docWrite g (insertRow + 1) 2 (optV (format_date e.enrollment_date))
  let g := docWrite g (insertRow + 1) 4 e.university
  let g := docWrite g (insertRow + 2) 2 (optV (format_date e.graduation_date))
  let g := docWrite g (insertRow + 2) 4 e.major
  let g := docWrite g (insertRow + 3) 2 e.diploma_number
  let g := docWrite g (insertRow + 4) 2 e.diploma_verification_code
  let g := docWrite g (insertRow + 6) 2 e.degree_number
  let g := docWrite g (insertRow + 7) 2 e.degree_verification_code
  ⟨g, off⟩

/-- `fill_education` (lines 197-232). -/
def fill_education (edus : List EduEntry) (st : Gen) : Gen :=
  let cls := classify edus
  let st :=
    match cls.1 with
    | some u => fill_undergraduate u st
    | none => fill_undergraduate emptyEdu st
  match cls.2.1, cls.2.2 with
  | some m, some d => insert_doctoral_section d (fill_graduate m false st)
  | some m, none => fill_graduate m false st
  | none, some d => fill_graduate d true st
  | none, none => st

/-! ## Repeating sections (work history, project history) -/

/-- `x if x else "【待补充】"` for a formatted date (an `Optional[str]`). -/
def optDateVal : Option String → Value
  | some s => if s = "" then vstr PH else vstr s
  | none => vstr PH

/-- `x if x else "【待补充】"` for a raw record value. -/
def valueOr (v : Value) : Value :=
  if truthy v then v else vstr PH

/-- `"【待补充】" if x is None else ("是" if x else "否")`. -/
def psbcVal : Value → Value
  | vnone => vstr PH
  | v => vstr (if truthy v then "是" else "否")

/-- The post-write highlight pass: for each listed column, highlight the
cell iff its value equals the placeholder token. -/
def hlIfPH (g : Grid) (row : Nat) : List Nat → Grid
  | [] => g
  | c :: cs =>
    hlIfPH (if pyEqStr (g.cell row c).value PH then g.setHL row c else g) row cs

/-- One iteration of the work-history data loop (lines 424-448). -/
def writeWorkRow (g : Grid) (row : Nat) (e : WorkEntry) : Grid :=
  let g := g.setVal row 1 (optDateVal (format_date e.start_date))
  let g := g.setVal row 2 (optDateVal (format_date e.end_date))
  let g := g.setVal row 3 (valueOr e.company)
  let g := g.setVal row 4 (valueOr e.position)
  let g := g.setVal row 5 (psbcVal e.is_psbc_independent_dev)
  hlIfPH g row [1, 2, 3, 4, 5]

/-- The work-history data loop over all entries. -/
def writeWorkRows (g : Grid) (row : Nat) : List WorkEntry → Grid
  | [] => g
  | e :: es => writeWorkRows (writeWorkRow g row e) (row + 1) es

/-- Blank columns 1-5 of one row (`.value = None`, style untouched). -/
def blankRow5 (g : Grid) (row : Nat) : Grid :=
  let g := g.setVal row 1 vnone
  let g := g.setVal row 2 vnone
  let g := g.setVal row 3 vnone
  let g := g.setVal row 4 vnone
  g.setVal row 5 vnone

/-- `for i in range(num_items, template_rows): blank row data_start+i`. -/
def blankRows5 (g : Grid) (row : Nat) : Nat → Grid
  | 0 => g
  | k + 1 => blankRows5 (blankRow5 g row) (row + 1) k

/-- `fill_work_experience` (lines 384-455).  Template anchors: data starts
at pristine row 33 with `template_rows = 2` example rows. -/
def fill_work_experience (work : List WorkEntry) (st : Gen) : Gen :=
  if work.isEmpty then st
  else
    let dsr := 33 + st.off
    let n := work.length
    let extra := n - 2
    let st1 : Gen :=
      if 0 < extra then
        let g := st.g.insertRows (dsr + 2) extra
        let g := copyStyleRows g dsr (dsr + 2) extra
        ⟨g, st.off + extra⟩
      else st
    -- unmerge the data region's B:F merges (data rows only, not the header)
    let keep : Rect → Bool := fun mr =>
      !(decide (dsr ≤ mr.r0) && decide (mr.r0 < dsr + n) &&
        decide (2 ≤ mr.c0) && decide (3 ≤ mr.c1))
    let g := { st1.g with merges := st1.g.merges.filter keep }
    let g := writeWorkRows g dsr work
    let g := if n < 2 then blankRows5 g (dsr + n) (2 - n) else g
    ⟨g, st1.off⟩

/-- One iteration of the project-history data loop (lines 498-534). -/
def writeProjRow (g : Grid) (row : Nat) (e : ProjEntry) : Grid :=
  let g := g.setVal row 1 (optDateVal (format_date e.start_date))
  let g := g.setVal row 2 (optDateVal (format_date e.end_date))
  let g := g.setVal row 3 (valueOr e.project_name)
  let g := g.setVal row 4 (valueOr e.description)
  let g := g.setVal row 5 (valueOr e.role)
  let g := g.setVal row 6 (psbcVal e.is_psbc_independent_dev)
  hlIfPH g row [1, 2, 3, 4, 5, 6]

/-- The project-history data loop over all entries. -/
def writeProjRows (g : Grid) (row : Nat) : List ProjEntry → Grid
  | [] => g
  | e :: es => writeProjRows (writeProjRow g row e) (row + 1) es

/-- `fill_project_experience` (lines 457-534).  Data starts at pristine
row 38; before inserting, every merge at or below the insertion point is
removed; unused trailing example rows are never blanked here. -/
def fill_project_experience (proj : List ProjEntry) (st : Gen) : Gen :=
  if proj.isEmpty then st
  else
    let dsr := 38 + st.off
    let n := proj.length
    let extra := n - 2
    let st1 : Gen :=
      if 0 < extra then
        let ip := dsr + 2
        let keep : Rect → Bool := fun mr => !(decide (ip ≤ mr.r0))
        let g := { st.g with merges := st.g.merges.filter keep }
        let g := g.insertRows ip extra
        let g := copyStyleRows g dsr ip extra
        ⟨g, st.off + extra⟩
      else st
    ⟨writeProjRows st1.g dsr proj, st1.off⟩

/-- `generate` (lines 550-587): the fixed composition pipeline. -/
def generate (d : ResumeData) (st : Gen) : Gen :=
  let st := fill_basic_info d.basic_info st
  let st := fill_personal_info d.personal_info st
  let st := fill_education d.education st
  let st := fill_work_experience d.work_experience st
  let st := fill_project_experience d.project_experience st
  fill_technical_skills d.technical_skills st

/-! ## Driver glue (`process_resume.py` / `main`) -/

/-- The parse result returned by the inference collaborator: a record,
possibly carrying a top-level `error` key. -/
structure Parsed where
  error : Option String
  record : ResumeData

/-- The post-inference part of `process_single_resume`
(`process_resume.py` lines 75-91): on an `error` key, fail with the
collaborator's payload before any JSON/grid output; otherwise save the
JSON and run composition on a fresh template grid, saving the result.
Returned as ((success, message), written JSON, written workbook). -/
def process_after_llm (p : Parsed) (tpl : Grid) :
    (Bool × String) × Option Parsed × Option Grid :=
  match p.error with
  | some e => ((false, "解析失败: " ++ e), none, none)
  | none =>
    let res := generate p.record ⟨tpl, 0⟩
    ((true, "处理完成！"), some p, some res.g)

/-- The `error` guard of `resume_template_generator.main`
(lines 621-634): composition is skipped entirely when the parsed data
carries an `error` key. -/
def generator_main (p : Parsed) (tpl : Grid) : Option Grid :=
  match p.error with
  | some _ => none
  | none => some (generate p.record ⟨tpl, 0⟩).g

/-! ## Statement helpers -/

/-- The value `_fill_cell` ends up writing for a (post-normalization)
value: the placeholder for absent data, the joined list, the localized
boolean, or the textual form. -/
def fillValue (v : Value) : Value :=
  if absentish v then vstr PH
  else
    match v with
    | vlist l => vstr (String.intercalate "、" (l.map pyStr))
    | vbool b => vstr (if b then "是" else "否")
    | v' => vstr (pyStr v')

/-- The value `_fill_cell` writes for a date field holding `o`. -/
def dateFieldValue (o : Option String) : Value :=
  fillValue (if truthy (optV o) then valFormatDate (optV o) else optV o)

/-! ## Basic evaluation lemmas -/

/-! ## Statement helpers and concrete fixtures -/

/-- The value the work-history data loop writes into column `c` for entry `e`. -/
def workColVal (e : WorkEntry) : Nat → Value
  | 1 => optDateVal (format_date e.start_date)
  | 2 => optDateVal (format_date e.end_date)
  | 3 => valueOr e.company
  | 4 => valueOr e.position
  | 5 => psbcVal e.is_psbc_independent_dev
  | _ => vnone

/-- The value the project-history data loop writes into column `c` for entry `e`. -/
def projColVal (e : ProjEntry) : Nat → Value
  | 1 => optDateVal (format_date e.start_date)
  | 2 => optDateVal (format_date e.end_date)
  | 3 => valueOr e.project_name
  | 4 => valueOr e.description
  | 5 => valueOr e.role
  | 6 => psbcVal e.is_psbc_independent_dev
  | _ => vnone

/-- A blank worksheet used for concrete witnesses. -/
def blankGrid : Grid := ⟨fun _ _ => defCell, [], 50⟩

/-- A blank generator state (offset 0) used for concrete witnesses. -/
def blankState : Gen := ⟨blankGrid, 0⟩

/-- A template-like grid whose two work-history example rows hold visible
example content, for refuting the N = 0 blanking claim. -/
def exGrid : Grid :=
  ⟨fun r _ => if r = 33 ∨ r = 34 then ⟨vstr "EXAMPLE", some ⟨1, 2, 3⟩⟩ else defCell,
   [], 50⟩

/-- The entries `fill_education` classifies as undergraduate
(`"本科" in degree_type`). -/
def isBachelorTier (e : EduEntry) : Bool :=
  hasSub "本科" e.degree_type

/-- The entries `fill_education` classifies as master
(no `本科`, contains `硕士`). -/
def isMasterTier (e : EduEntry) : Bool :=
  !hasSub "本科" e.degree_type && hasSub "硕士" e.degree_type

/-- The entries `fill_education` classifies as doctoral
(no `本科` or `硕士`, contains `博士`). -/
def isDoctorTier (e : EduEntry) : Bool :=
  !hasSub "本科" e.degree_type && !hasSub "硕士" e.degree_type &&
    hasSub "博士" e.degree_type

/-- First-some choice on optional education entries. -/
def orElseO (a b : Option EduEntry) : Option EduEntry :=
  match a with
  | some x => some x
  | none => b

/-- The last entry of a list satisfying `p`, if any. -/
def lastMatching (p : EduEntry → Bool) : List EduEntry → Option EduEntry
  | [] => none
  | e :: es => orElseO (lastMatching p es) (if p e then some e else none)

/-- Two same-tier (master) entries for the C9 witness. -/
def eduM1 : EduEntry := { emptyEdu with degree_type := "硕士", university := vstr "U1" }

/-- The later of the two master entries: the one that must win. -/
def eduM2 : EduEntry := { emptyEdu with degree_type := "工学硕士", university := vstr "U2" }

/-- A master entry for the C1 scenario. -/
def mEduW : EduEntry := { emptyEdu with degree_type := "硕士", university := vstr "MU" }

/-- A doctorate entry for the C1 scenario. -/
def dEduW : EduEntry := { emptyEdu with degree_type := "博士", university := vstr "DU" }

/-- A record with both a master and a doctorate entry. -/
def recMD : ResumeData :=
  ⟨⟨vnone, vnone⟩, ⟨vnone, none, vnone, none, none, vnone, vnone⟩,
   [mEduW, dEduW], [], [], ⟨vnone, vnone, vnone⟩⟩

/-- A template-like grid: section title on pristine row 31 (merged A:F) and
the E32:F32 merge of the column-header row. -/
def tplMD : Grid :=
  ⟨fun r c => if r = 31 ∧ c = 1 then ⟨vstr "工作经历", none⟩ else defCell,
   [⟨31, 1, 31, 6⟩, ⟨32, 5, 32, 6⟩], 50⟩

/-- A template-like grid whose first example row (33) and second example
row (34) carry different styles. -/
def tplC2 : Grid :=
  ⟨fun r _ =>
    if r = 33 then ⟨vstr "EX1", some ⟨1, 1, 1⟩⟩
    else if r = 34 then ⟨vstr "EX2", some ⟨2, 2, 2⟩⟩
    else defCell,
   [], 50⟩

/-- A fully-populated work entry (no placeholders, no highlight). -/
def weC (c : String) : WorkEntry :=
  ⟨some "2020-01-01", some "2021-01-01", vstr c, vstr "dev", vbool true⟩

/-- A fully-populated project entry. -/
def peC (c : String) : ProjEntry :=
  ⟨some "2020-01-01", some "2021-01-01", vstr c, vstr "desc", vstr "role", vbool true⟩

@[simp]
theorem Grid.cell_setVal (g : Grid) (r c : Nat) (v : Value) (r' c' : Nat) :
    (g.setVal r c v).cell r' c' =
      if r' = r ∧ c' = c then { g.cell r c with value := v } else g.cell r' c' := rfl

@[simp]
theorem Grid.merges_setVal (g : Grid) (r c : Nat) (v : Value) :
    (g.setVal r c v).merges = g.merges := rfl

@[simp]
theorem Grid.maxRow_setVal (g : Grid) (r c : Nat) (v : Value) :
    (g.setVal r c v).maxRow = g.maxRow := rfl

@[simp]
theorem Grid.cell_setHL (g : Grid) (r c : Nat) (r' c' : Nat) :
    (g.setHL r c).cell r' c' =
      if r' = r ∧ c' = c then hlStyle (g.cell r c) else g.cell r' c' := rfl

@[simp]
theorem Grid.merges_setHL (g : Grid) (r c : Nat) :
    (g.setHL r c).merges = g.merges := rfl

@[simp]
theorem Grid.maxRow_setHL (g : Grid) (r c : Nat) :
    (g.setHL r c).maxRow = g.maxRow := rfl

@[simp]
theorem Grid.cell_mergeCells (g : Grid) (mr : Rect) (r' c' : Nat) :
    (g.mergeCells mr).cell r' c' = g.cell r' c' := rfl

@[simp]
theorem Grid.merges_mergeCells (g : Grid) (mr : Rect) :
    (g.mergeCells mr).merges = g.merges ++ [mr] := rfl

@[simp]
theorem Grid.maxRow_mergeCells (g : Grid) (mr : Rect) :
    (g.mergeCells mr).maxRow = g.maxRow := rfl

@[simp]
theorem Grid.cell_insertRows (g : Grid) (a cnt : Nat) (r c : Nat) :
    (g.insertRows a cnt).cell r c =
      if a ≤ r then (if r < a + cnt then defCell else g.cell (r - cnt) c)
      else g.cell r c := rfl

@[simp]
theorem Grid.merges_insertRows (g : Grid) (a cnt : Nat) :
    (g.insertRows a cnt).merges = g.merges.map (shiftRect a cnt) := rfl

@[simp]
theorem Grid.maxRow_insertRows (g : Grid) (a cnt : Nat) :
    (g.insertRows a cnt).maxRow = g.maxRow + cnt := rfl

@[simp]
theorem Grid.cell_copyRowStyle (g : Grid) (src dst : Nat) (r c : Nat) :
    (copyRowStyle g src dst).cell r c =
      if r = dst ∧ 1 ≤ c ∧ c ≤ 15 ∧ (g.cell src c).style.isSome then
        { g.cell dst c with style := (g.cell src c).style }
      else g.cell r c := rfl

@[simp]
theorem Grid.merges_copyRowStyle (g : Grid) (src dst : Nat) :
    (copyRowStyle g src dst).merges = g.merges := rfl

@[simp]
theorem Grid.maxRow_copyRowStyle (g : Grid) (src dst : Nat) :
    (copyRowStyle g src dst).maxRow = g.maxRow := rfl

@[simp]
theorem value_hlStyle (cl : Cell) : (hlStyle cl).value = cl.value := rfl

open Value

theorem fill_cell_off (st : Gen) (row col : Nat) (v : Value) (ao d : Bool) :
    (fill_cell st row col v ao d).off = st.off := by
  unfold fill_cell
  dsimp only
  repeat' split
  all_goals rfl

theorem fill_cell_cell_other (st : Gen) (row col : Nat) (v : Value) (ao d : Bool)
    (r' c' : Nat) (h : ¬(r' = (if ao then row + st.off else row) ∧ c' = col)) :
    (fill_cell st row col v ao d).g.cell r' c' = st.g.cell r' c' := by
  unfold fill_cell
  dsimp only
  repeat' split
  all_goals simp_all

theorem fill_cell_merges (st : Gen) (row col : Nat) (v : Value) (ao d : Bool) :
    (fill_cell st row col v ao d).g.merges = st.g.merges := by
  unfold fill_cell
  dsimp only
  repeat' split
  all_goals simp

theorem fill_cell_maxRow (st : Gen) (row col : Nat) (v : Value) (ao d : Bool) :
    (fill_cell st row col v ao d).g.maxRow = st.g.maxRow := by
  unfold fill_cell
  dsimp only
  repeat' split
  all_goals simp

theorem fill_cell_normalize (st : Gen) (row col : Nat) (v : Value) (ao d : Bool) :
    fill_cell st row col v ao d =
      fill_cell st row col (if d && truthy v then valFormatDate v else v) ao false := by
  unfold fill_cell
  dsimp only [Bool.false_and]
  split <;> rfl

theorem fill_cell_value_nodate (st : Gen) (row col : Nat) (v : Value) (ao : Bool) :
    ((fill_cell st row col v ao false).g.cell (if ao then row + st.off else row) col).value =
      fillValue v := by
  unfold fill_cell fillValue
  dsimp only [Bool.false_and]
  cases v with
  | vnone => simp [absentish]
  | vstr s => by_cases hs : s = "" <;> simp [absentish, hs]
  | vbool b => simp [absentish]
  | vlist l => cases l <;> simp [absentish]

theorem fill_cell_value (st : Gen) (row col : Nat) (v : Value) (ao d : Bool) :
    ((fill_cell st row col v ao d).g.cell (if ao then row + st.off else row) col).value =
      fillValue (if d && truthy v then valFormatDate v else v) := by
  rw [fill_cell_normalize]
  exact fill_cell_value_nodate st row col _ ao

/-- Push a cell lookup through a grid-level `if`. -/
theorem cell_ite (P : Prop) [Decidable P] (g1 g2 : Grid) (r c : Nat) :
    (if P then g1 else g2).cell r c = if P then g1.cell r c else g2.cell r c := by
  split <;> rfl

/-- Push a merges lookup through a grid-level `if`. -/
theorem merges_ite (P : Prop) [Decidable P] (g1 g2 : Grid) :
    (if P then g1 else g2).merges = if P then g1.merges else g2.merges := by
  split <;> rfl

/-- Push a maxRow lookup through a grid-level `if`. -/
theorem maxRow_ite (P : Prop) [Decidable P] (g1 g2 : Grid) :
    (if P then g1 else g2).maxRow = if P then g1.maxRow else g2.maxRow := by
  split <;> rfl

theorem hlIfPH_other (g : Grid) (row : Nat) (cs : List Nat) (r' c' : Nat)
    (h : r' ≠ row) :
    (hlIfPH g row cs).cell r' c' = g.cell r' c' := by
  induction cs generalizing g with
  | nil => rfl
  | cons c cs ih =>
    rw [hlIfPH, ih]
    rw [cell_ite]
    simp [h]

theorem hlIfPH_col_other (g : Grid) (row : Nat) (cs : List Nat) (r' c' : Nat)
    (h : c' ∉ cs) :
    (hlIfPH g row cs).cell r' c' = g.cell r' c' := by
  induction cs generalizing g with
  | nil => rfl
  | cons c cs ih =>
    rw [hlIfPH, ih _ (fun hm => h (List.mem_cons_of_mem c hm))]
    rw [cell_ite]
    have : ¬(c' = c) := fun hv => h (hv ▸ List.mem_cons_self c cs)
    simp [this]

theorem hlIfPH_value (g : Grid) (row : Nat) (cs : List Nat) (r' c' : Nat) :
    ((hlIfPH g row cs).cell r' c').value = (g.cell r' c').value := by
  induction cs generalizing g with
  | nil => rfl
  | cons c cs ih =>
    rw [hlIfPH, ih]
    rw [cell_ite]
    split
    · simp only [Grid.cell_setHL]
      split
      · next h => rw [h.1, h.2]; simp
      · rfl
    · rfl

theorem hlIfPH_merges (g : Grid) (row : Nat) (cs : List Nat) :
    (hlIfPH g row cs).merges = g.merges := by
  induction cs generalizing g with
  | nil => rfl
  | cons c cs ih =>
    rw [hlIfPH, ih, merges_ite]
    split <;> simp

theorem hlIfPH_maxRow (g : Grid) (row : Nat) (cs : List Nat) :
    (hlIfPH g row cs).maxRow = g.maxRow := by
  induction cs generalizing g with
  | nil => rfl
  | cons c cs ih =>
    rw [hlIfPH, ih, maxRow_ite]
    split <;> simp

theorem hlIfPH_mem (g : Grid) (row : Nat) (cs : List Nat) (c : Nat)
    (hc : c ∈ cs) (hnd : cs.Nodup) :
    (hlIfPH g row cs).cell row c =
      if pyEqStr (g.cell row c).value PH then hlStyle (g.cell row c)
      else g.cell row c := by
  induction cs generalizing g with
  | nil => cases hc
  | cons c0 cs ih =>
    rcases List.mem_cons.mp hc with hceq | hctail
    · subst hceq
      have hout : c ∉ cs := (List.nodup_cons.mp hnd).1
      rw [hlIfPH, hlIfPH_col_other _ _ _ _ _ hout, cell_ite]
      split <;> simp
    · have hnd' : cs.Nodup := (List.nodup_cons.mp hnd).2
      have hne : c ≠ c0 := fun hv => (List.nodup_cons.mp hnd).1 (hv ▸ hctail)
      rw [hlIfPH, ih _ hctail hnd']
      have hcell : (if pyEqStr (g.cell row c0).value PH then g.setHL row c0 else g).cell row c
          = g.cell row c := by
        rw [cell_ite]
        simp [hne]
      rw [hcell]

theorem writeWorkRow_other (g : Grid) (row : Nat) (e : WorkEntry) (r' c' : Nat)
    (h : r' ≠ row) :
    (writeWorkRow g row e).cell r' c' = g.cell r' c' := by
  rw [writeWorkRow, hlIfPH_other _ _ _ _ _ h]
  simp [h]

theorem writeWorkRow_merges (g : Grid) (row : Nat) (e : WorkEntry) :
    (writeWorkRow g row e).merges = g.merges := by
  rw [writeWorkRow, hlIfPH_merges]
  simp

theorem writeWorkRow_maxRow (g : Grid) (row : Nat) (e : WorkEntry) :
    (writeWorkRow g row e).maxRow = g.maxRow := by
  rw [writeWorkRow, hlIfPH_maxRow]
  simp

theorem writeWorkRow_cell (g : Grid) (row : Nat) (e : WorkEntry) (c : Nat)
    (hc : c ∈ [1, 2, 3, 4, 5]) :
    (writeWorkRow g row e).cell row c =
      if pyEqStr (workColVal e c) PH then
        hlStyle { g.cell row c with value := workColVal e c }
      else { g.cell row c with value := workColVal e c } := by
  have hsets : ∀ c', c' ∈ [1, 2, 3, 4, 5] →
      ((((((g.setVal row 1 (optDateVal (format_date e.start_date))).setVal row 2
        (optDateVal (format_date e.end_date))).setVal row 3
        (valueOr e.company)).setVal row 4
        (valueOr e.position)).setVal row 5
        (psbcVal e.is_psbc_independent_dev)).cell row c')
        = { g.cell row c' with value := workColVal e c' } := by
    intro c' hc'
    fin_cases hc' <;> simp [workColVal]
  rw [writeWorkRow,
    hlIfPH_mem _ _ _ _ hc (by decide),
    hsets c hc]

theorem writeWorkRow_col_other (g : Grid) (row : Nat) (e : WorkEntry) (r' c' : Nat)
    (h : c' ∉ ([1, 2, 3, 4, 5] : List Nat)) :
    (writeWorkRow g row e).cell r' c' = g.cell r' c' := by
  have h1 : c' ≠ 1 := by intro hv; exact h (by rw [hv]; decide)
  have h2 : c' ≠ 2 := by intro hv; exact h (by rw [hv]; decide)
  have h3 : c' ≠ 3 := by intro hv; exact h (by rw [hv]; decide)
  have h4 : c' ≠ 4 := by intro hv; exact h (by rw [hv]; decide)
  have h5 : c' ≠ 5 := by intro hv; exact h (by rw [hv]; decide)
  rw [writeWorkRow, hlIfPH_col_other _ _ _ _ _ h]
  simp [h1, h2, h3, h4, h5]

theorem writeWorkRows_other (g : Grid) (row : Nat) (l : List WorkEntry) (r' c' : Nat)
    (h : r' < row ∨ row + l.length ≤ r') :
    (writeWorkRows g row l).cell r' c' = g.cell r' c' := by
  induction l generalizing g row with
  | nil => rfl
  | cons e es ih =>
    have hne : r' ≠ row := by
      rcases h with h | h
      · omega
      · simp only [List.length_cons] at h; omega
    have h' : r' < row + 1 ∨ row + 1 + es.length ≤ r' := by
      rcases h with h | h
      · left; omega
      · right; simp only [List.length_cons] at h; omega
    rw [writeWorkRows, ih _ _ h', writeWorkRow_other _ _ _ _ _ hne]

theorem writeWorkRows_merges (g : Grid) (row : Nat) (l : List WorkEntry) :
    (writeWorkRows g row l).merges = g.merges := by
  induction l generalizing g row with
  | nil => rfl
  | cons e es ih => rw [writeWorkRows, ih, writeWorkRow_merges]

theorem writeWorkRows_maxRow (g : Grid) (row : Nat) (l : List WorkEntry) :
    (writeWorkRows g row l).maxRow = g.maxRow := by
  induction l generalizing g row with
  | nil => rfl
  | cons e es ih => rw [writeWorkRows, ih, writeWorkRow_maxRow]

theorem writeWorkRows_cell (g : Grid) (row : Nat) (l : List WorkEntry)
    (i : Nat) (e : WorkEntry) (hi : l.get? i = some e) (c : Nat)
    (hc : c ∈ [1, 2, 3, 4, 5]) :
    (writeWorkRows g row l).cell (row + i) c =
      if pyEqStr (workColVal e c) PH then
        hlStyle { g.cell (row + i) c with value := workColVal e c }
      else { g.cell (row + i) c with value := workColVal e c } := by
  induction l generalizing g row i with
  | nil => simp at hi
  | cons e0 es ih =>
    cases i with
    | zero =>
      simp only [List.get?] at hi
      injection hi with hi
      subst hi
      rw [writeWorkRows, writeWorkRows_other _ _ _ _ _ (by omega)]
      simp only [Nat.add_zero]
      exact writeWorkRow_cell _ _ _ _ hc
    | succ i =>
      simp only [List.get?] at hi
      have := ih (writeWorkRow g row e0) (row + 1) i hi
      rw [writeWorkRows]
      have harr : row + 1 + i = row + (i + 1) := by omega
      rw [harr] at this
      rw [this, writeWorkRow_other _ _ _ _ _ (by omega)]

theorem writeProjRow_other (g : Grid) (row : Nat) (e : ProjEntry) (r' c' : Nat)
    (h : r' ≠ row) :
    (writeProjRow g row e).cell r' c' = g.cell r' c' := by
  rw [writeProjRow, hlIfPH_other _ _ _ _ _ h]
  simp [h]

theorem writeProjRow_merges (g : Grid) (row : Nat) (e : ProjEntry) :
    (writeProjRow g row e).merges = g.merges := by
  rw [writeProjRow, hlIfPH_merges]
  simp

theorem writeProjRow_maxRow (g : Grid) (row : Nat) (e : ProjEntry) :
    (writeProjRow g row e).maxRow = g.maxRow := by
  rw [writeProjRow, hlIfPH_maxRow]
  simp

theorem writeProjRow_cell (g : Grid) (row : Nat) (e : ProjEntry) (c : Nat)
    (hc : c ∈ [1, 2, 3, 4, 5, 6]) :
    (writeProjRow g row e).cell row c =
      if pyEqStr (projColVal e c) PH then
        hlStyle { g.cell row c with value := projColVal e c }
      else { g.cell row c with value := projColVal e c } := by
  have hsets : ∀ c', c' ∈ [1, 2, 3, 4, 5, 6] →
      (((((((g.setVal row 1 (optDateVal (format_date e.start_date))).setVal row 2
        (optDateVal (format_date e.end_date))).setVal row 3
        (valueOr e.project_name)).setVal row 4
        (valueOr e.description)).setVal row 5
        (valueOr e.role)).setVal row 6
        (psbcVal e.is_psbc_independent_dev)).cell row c')
        = { g.cell row c' with value := projColVal e c' } := by
    intro c' hc'
    fin_cases hc' <;> simp [projColVal]
  rw [writeProjRow,
    hlIfPH_mem _ _ _ _ hc (by decide),
    hsets c hc]

theorem writeProjRows_other (g : Grid) (row : Nat) (l : List ProjEntry) (r' c' : Nat)
    (h : r' < row ∨ row + l.length ≤ r') :
    (writeProjRows g row l).cell r' c' = g.cell r' c' := by
  induction l generalizing g row with
  | nil => rfl
  | cons e es ih =>
    have hne : r' ≠ row := by
      rcases h with h | h
      · omega
      · simp only [List.length_cons] at h; omega
    have h' : r' < row + 1 ∨ row + 1 + es.length ≤ r' := by
      rcases h with h | h
      · left; omega
      · right; simp only [List.length_cons] at h; omega
    rw [writeProjRows, ih _ _ h', writeProjRow_other _ _ _ _ _ hne]

theorem writeProjRows_merges (g : Grid) (row : Nat) (l : List ProjEntry) :
    (writeProjRows g row l).merges = g.merges := by
  induction l generalizing g row with
  | nil => rfl
  | cons e es ih => rw [writeProjRows, ih, writeProjRow_merges]

theorem writeProjRows_maxRow (g : Grid) (row : Nat) (l : List ProjEntry) :
    (writeProjRows g row l).maxRow = g.maxRow := by
  induction l generalizing g row with
  | nil => rfl
  | cons e es ih => rw [writeProjRows, ih, writeProjRow_maxRow]

theorem writeProjRows_cell (g : Grid) (row : Nat) (l : List ProjEntry)
    (i : Nat) (e : ProjEntry) (hi : l.get? i = some e) (c : Nat)
    (hc : c ∈ [1, 2, 3, 4, 5, 6]) :
    (writeProjRows g row l).cell (row + i) c =
      if pyEqStr (projColVal e c) PH then
        hlStyle { g.cell (row + i) c with value := projColVal e c }
      else { g.cell (row + i) c with value := projColVal e c } := by
  induction l generalizing g row i with
  | nil => simp at hi
  | cons e0 es ih =>
    cases i with
    | zero =>
      simp only [List.get?] at hi
      injection hi with hi
      subst hi
      rw [writeProjRows, writeProjRows_other _ _ _ _ _ (by omega)]
      simp only [Nat.add_zero]
      exact writeProjRow_cell _ _ _ _ hc
    | succ i =>
      simp only [List.get?] at hi
      have := ih (writeProjRow g row e0) (row + 1) i hi
      rw [writeProjRows]
      have harr : row + 1 + i = row + (i + 1) := by omega
      rw [harr] at this
      rw [this, writeProjRow_other _ _ _ _ _ (by omega)]

theorem copyStyleRows_other (g : Grid) (src dst cnt : Nat) (r' c' : Nat)
    (h : r' < dst ∨ dst + cnt ≤ r') :
    (copyStyleRows g src dst cnt).cell r' c' = g.cell r' c' := by
  induction cnt generalizing g dst with
  | zero => rfl
  | succ k ih =>
    have hne : ¬(r' = dst) := by omega
    have h' : r' < dst + 1 ∨ dst + 1 + k ≤ r' := by omega
    rw [copyStyleRows, ih _ _ h']
    simp [copyRowStyle, hne]

theorem copyStyleRows_merges (g : Grid) (src dst cnt : Nat) :
    (copyStyleRows g src dst cnt).merges = g.merges := by
  induction cnt generalizing g dst with
  | zero => rfl
  | succ k ih => rw [copyStyleRows, ih]; rfl

theorem copyStyleRows_maxRow (g : Grid) (src dst cnt : Nat) :
    (copyStyleRows g src dst cnt).maxRow = g.maxRow := by
  induction cnt generalizing g dst with
  | zero => rfl
  | succ k ih => rw [copyStyleRows, ih]; rfl

theorem copyRowStyle_value (g : Grid) (src dst : Nat) (r' c' : Nat) :
    ((copyRowStyle g src dst).cell r' c').value = (g.cell r' c').value := by
  simp only [Grid.cell_copyRowStyle]
  split
  · next h => rw [h.1]
  · rfl

theorem copyStyleRows_value (g : Grid) (src dst cnt : Nat) (r' c' : Nat) :
    ((copyStyleRows g src dst cnt).cell r' c').value = (g.cell r' c').value := by
  induction cnt generalizing g dst with
  | zero => rfl
  | succ k ih => rw [copyStyleRows, ih, copyRowStyle_value]

theorem copyStyleRows_target (g : Grid) (src dst cnt : Nat) (i c : Nat)
    (hsrc : src < dst) (hi : i < cnt) (hc1 : 1 ≤ c) (hc15 : c ≤ 15)
    (hfresh : (g.cell (dst + i) c).style = none) :
    ((copyStyleRows g src dst cnt).cell (dst + i) c).style = (g.cell src c).style := by
  induction cnt generalizing g dst i with
  | zero => omega
  | succ k ih =>
    cases i with
    | zero =>
      rw [copyStyleRows, copyStyleRows_other _ _ _ _ _ _ (by omega)]
      simp only [Nat.add_zero] at hfresh ⊢
      simp only [Grid.cell_copyRowStyle]
      cases hstyle : (g.cell src c).style with
      | none => simp [hstyle, hfresh]
      | some s => simp [hstyle, hc1, hc15]
    | succ i =>
      rw [copyStyleRows]
      have hsrc' : (copyRowStyle g src dst).cell src c = g.cell src c := by
        simp [copyRowStyle]
        intro h
        omega
      have hfresh' : ((copyRowStyle g src dst).cell (dst + 1 + i) c).style = none := by
        have : (copyRowStyle g src dst).cell (dst + 1 + i) c = g.cell (dst + 1 + i) c := by
          simp [copyRowStyle]
          intro h
          omega
        rw [this]
        have harr : dst + 1 + i = dst + (i + 1) := by omega
        rw [harr]
        exact hfresh
      have := ih (copyRowStyle g src dst) (dst + 1) i (by omega) (by omega) hfresh'
      rw [hsrc'] at this
      have harr : dst + 1 + i = dst + (i + 1) := by omega
      rw [harr] at this
      exact this

theorem blankRow5_cell (g : Grid) (row : Nat) (c : Nat) (hc : c ∈ [1, 2, 3, 4, 5]) :
    (blankRow5 g row).cell row c = { g.cell row c with value := vnone } := by
  fin_cases hc <;> simp [blankRow5]

theorem blankRow5_other (g : Grid) (row : Nat) (r' c' : Nat) (h : r' ≠ row) :
    (blankRow5 g row).cell r' c' = g.cell r' c' := by
  simp [blankRow5, h]

theorem blankRow5_merges (g : Grid) (row : Nat) :
    (blankRow5 g row).merges = g.merges := by
  simp [blankRow5]

theorem blankRow5_maxRow (g : Grid) (row : Nat) :
    (blankRow5 g row).maxRow = g.maxRow := by
  simp [blankRow5]

theorem blankRows5_one (g : Grid) (row : Nat) :
    blankRows5 g row 1 = blankRow5 g row := rfl

theorem highlighted_hlStyle (cl : Cell) : highlighted (hlStyle cl) = true := by
  simp [highlighted, hlStyle, hlFill, hlFont]

theorem fill_cell_cell_nodate (st : Gen) (row col : Nat) (v : Value) (ao : Bool) :
    (fill_cell st row col v ao false).g.cell (if ao then row + st.off else row) col =
      if absentish v then
        hlStyle { st.g.cell (if ao then row + st.off else row) col with value := vstr PH }
      else { st.g.cell (if ao then row + st.off else row) col with value := fillValue v } := by
  unfold fill_cell fillValue
  dsimp only [Bool.false_and]
  cases v with
  | vnone => simp [absentish]
  | vstr s => by_cases hs : s = "" <;> simp [absentish, hs]
  | vbool b => simp [absentish]
  | vlist l => cases l <;> simp [absentish]

theorem fill_cell_cell (st : Gen) (row col : Nat) (v : Value) (ao d : Bool) :
    (fill_cell st row col v ao d).g.cell (if ao then row + st.off else row) col =
      if absentish (if d && truthy v then valFormatDate v else v) then
        hlStyle { st.g.cell (if ao then row + st.off else row) col with value := vstr PH }
      else { st.g.cell (if ao then row + st.off else row) col with
              value := fillValue (if d && truthy v then valFormatDate v else v) } := by
  rw [fill_cell_normalize]
  exact fill_cell_cell_nodate st row col _ ao

/-- The rewritten form of `fmtCore` is never empty when its input is not. -/
theorem fmtCore_ne_nil (l : List Char) (h : l ≠ []) : fmtCore l ≠ [] := by
  unfold fmtCore
  repeat' split
  all_goals simp_all

theorem truthy_of_absentish (v : Value) (h : absentish v = true) : truthy v = false := by
  cases v <;> simp_all [absentish, truthy]

/-- The post-normalization value of a written field is still present when the
raw value is present, except for a date field whose text strips to nothing. -/
theorem absentish_norm (v : Value) (d : Bool) (h : absentish v = false)
    (hdate : ∀ s, v = vstr s → d = true → (stripChars s.data).isEmpty = false) :
    absentish (if d && truthy v then valFormatDate v else v) = false := by
  cases hd : d && truthy v
  · simpa [hd] using h
  · rw [if_pos rfl]
    cases v with
    | vnone => simp [truthy] at hd
    | vbool b => simpa [valFormatDate] using h
    | vlist l => simpa [valFormatDate] using h
    | vstr s =>
      have hde : d = true := (Bool.and_eq_true_iff.mp hd).1
      have hne : (stripChars s.data).isEmpty = false := hdate s rfl hde
      simp only [valFormatDate, format_date, hne]
      have : String.mk (fmtCore (stripChars s.data)) ≠ "" := by
        intro hcon
        exact fmtCore_ne_nil (stripChars s.data)
          (by simpa [List.isEmpty_iff] using hne)
          (by simpa [String.ext_iff] using hcon)
      simp [absentish, this]

/-! ## Claim theorems -/

/-- C5 (amended): a scalar field whose value is absent (null), an empty
string, or an empty list is written as the placeholder token `【待补充】`
with the highlight fill and font; for a present non-empty value the
highlight is not applied (the cell's style is untouched) — except that a
date field whose string is whitespace-only normalizes to absent and is
treated like a missing value; in particular a work entry with a null
end date renders placeholder-plus-highlight in its end-date cell. -/

theorem c5_placeholder_highlight_policy :
    (∀ (st : Gen) (row col : Nat) (ao d : Bool) (v : Value),
      absentish v = true →
        ((fill_cell st row col v ao d).g.cell (if ao then row + st.off else row) col).value
            = vstr PH ∧
          highlighted
            ((fill_cell st row col v ao d).g.cell (if ao then row + st.off else row) col)
            = true) ∧
    (∀ (st : Gen) (row col : Nat) (ao d : Bool) (v : Value),
      absentish v = false →
      (∀ s, v = vstr s → d = true → (stripChars s.data).isEmpty = false) →
        ((fill_cell st row col v ao d).g.cell (if ao then row + st.off else row) col).style
          = (st.g.cell (if ao then row + st.off else row) col).style) ∧
    (∀ (g : Grid) (row : Nat) (e : WorkEntry),
      e.end_date = none →
        (writeWorkRow g row e).cell row 2 =
          hlStyle { g.cell row 2 with value := vstr PH }) := by
  refine ⟨?_, ?_, ?_⟩
  · intro st row col ao d v h
    have hw : absentish (if d && truthy v then valFormatDate v else v) = true := by
      rw [truthy_of_absentish v h]
      simp [h]
    rw [fill_cell_cell, if_pos hw]
    exact ⟨rfl, highlighted_hlStyle _⟩
  · intro st row col ao d v h hdate
    have hw := absentish_norm v d h hdate
    rw [fill_cell_cell, if_neg (fun hcon => by rw [hw] at hcon; cases hcon)]
  · intro g row e he
    rw [writeWorkRow_cell _ _ _ 2 (by decide)]
    simp [workColVal, he, format_date, optDateVal, pyEqStr]

/-- C5 witness: a null value gets the placeholder and highlight; a work
entry with a null end date gets them in its end-date cell. -/
theorem c5_placeholder_highlight_policy_witness :
    (((fill_cell blankState 5 2 Value.vnone true false).g.cell 5 2).value = vstr PH ∧
      highlighted ((fill_cell blankState 5 2 Value.vnone true false).g.cell 5 2) = true) ∧
    (writeWorkRow blankGrid 33 ⟨some "2020-01-01", none, vstr "ACME", vstr "dev", vbool true⟩).cell 33 2
      = hlStyle { blankGrid.cell 33 2 with value := vstr PH } := by
  constructor
  · simpa using c5_placeholder_highlight_policy.1 blankState 5 2 true false Value.vnone rfl
  · exact c5_placeholder_highlight_policy.2.2 blankGrid 33 _ rfl

/-- C5 counterexample: the claim as stated says a present non-empty value is
never highlighted, but a whitespace-only date string is present and
non-empty yet is written as the placeholder with the highlight style. -/
theorem c5_whitespace_date_counterexample :
    absentish (vstr " ") = false ∧
    truthy (vstr " ") = true ∧
    ((fill_cell blankState 7 2 (vstr " ") true true).g.cell 7 2).value = vstr PH ∧
    highlighted ((fill_cell blankState 7 2 (vstr " ") true true).g.cell 7 2) = true := by
  refine ⟨rfl, rfl, ?_, ?_⟩ <;> rfl

/-- C10: a present boolean is rendered as the localized token (`是` for
True, `否` for False) and never as the placeholder: the single-cell writer
leaves the style untouched and writes the token, and the per-row work and
project writers, whose absence test is an is-null check, do the same in
their boolean columns. -/
theorem c10_boolean_rendering :
    (∀ (st : Gen) (row col : Nat) (ao d : Bool) (b : Bool),
      (fill_cell st row col (vbool b) ao d).g.cell (if ao then row + st.off else row) col =
        { st.g.cell (if ao then row + st.off else row) col with
            value := vstr (if b then "是" else "否") }) ∧
    (∀ (g : Grid) (row : Nat) (e : WorkEntry) (b : Bool),
      e.is_psbc_independent_dev = vbool b →
        (writeWorkRow g row e).cell row 5 =
          { g.cell row 5 with value := vstr (if b then "是" else "否") }) ∧
    (∀ (g : Grid) (row : Nat) (e : ProjEntry) (b : Bool),
      e.is_psbc_independent_dev = vbool b →
        (writeProjRow g row e).cell row 6 =
          { g.cell row 6 with value := vstr (if b then "是" else "否") }) := by
  refine ⟨?_, ?_, ?_⟩
  · intro st row col ao d b
    rw [fill_cell_cell]
    have hnorm : (if d && truthy (vbool b) then valFormatDate (vbool b) else vbool b)
        = vbool b := by
      simp [valFormatDate]
    rw [hnorm]
    simp [absentish, fillValue]
  · intro g row e b he
    rw [writeWorkRow_cell _ _ _ 5 (by decide)]
    cases b <;> simp [workColVal, he, psbcVal, truthy, pyEqStr, PH]
  · intro g row e b he
    rw [writeProjRow_cell _ _ _ 6 (by decide)]
    cases b <;> simp [projColVal, he, psbcVal, truthy, pyEqStr, PH]

/-- C10 witness: a present `False` boolean renders as `否` (value written,
style untouched) in the field writer and in both per-row writers. -/
theorem c10_boolean_rendering_witness :
    (fill_cell blankState 3 2 (vbool false) true false).g.cell 3 2 =
      { blankState.g.cell 3 2 with value := vstr "否" } ∧
    (writeWorkRow blankGrid 33 ⟨none, none, vstr "A", vstr "B", vbool false⟩).cell 33 5 =
      { blankGrid.cell 33 5 with value := vstr "否" } ∧
    (writeProjRow blankGrid 38 ⟨none, none, vstr "A", vstr "B", vstr "C", vbool false⟩).cell 38 6 =
      { blankGrid.cell 38 6 with value := vstr "否" } := by
  refine ⟨?_, ?_, ?_⟩
  · simpa using c10_boolean_rendering.1 blankState 3 2 true false false
  · simpa using c10_boolean_rendering.2.1 blankGrid 33 _ false rfl
  · simpa using c10_boolean_rendering.2.2 blankGrid 38 _ false rfl

/-- C4 counterexample: for an empty work-history list the claim says all
template example rows are blanked; the filler returns immediately and the
example rows keep their content. -/
theorem c4_zero_items_counterexample :
    fill_work_experience [] ⟨exGrid, 0⟩ = ⟨exGrid, 0⟩ ∧
    ((fill_work_experience [] ⟨exGrid, 0⟩).g.cell 33 1).value = vstr "EXAMPLE" ∧
    ((fill_work_experience [] ⟨exGrid, 0⟩).g.cell 34 1).value = vstr "EXAMPLE" ∧
    vstr "EXAMPLE" ≠ vnone := by
  exact ⟨rfl, rfl, rfl, fun h => Value.noConfusion h⟩

/-- C4 (amended): with fewer items than the two pre-authored example rows
the row count is unchanged; for the work-history section with exactly one
item the unused second example row has the values of its five data columns
cleared with no highlight (style untouched); with zero items both fillers
return without touching the grid at all; and the project-history filler
never blanks its unused trailing example row. -/
theorem c4_underfill_blanking :
    (∀ st : Gen, fill_work_experience [] st = st) ∧
    (∀ st : Gen, fill_project_experience [] st = st) ∧
    (∀ (st : Gen) (e : WorkEntry),
      (fill_work_experience [e] st).off = st.off ∧
      (fill_work_experience [e] st).g.maxRow = st.g.maxRow ∧
      (∀ c, c ∈ [1, 2, 3, 4, 5] →
        (fill_work_experience [e] st).g.cell (33 + st.off + 1) c =
          { st.g.cell (33 + st.off + 1) c with value := vnone })) ∧
    (∀ (st : Gen) (p : ProjEntry),
      (fill_project_experience [p] st).off = st.off ∧
      (fill_project_experience [p] st).g.maxRow = st.g.maxRow ∧
      (fill_project_experience [p] st).g.merges = st.g.merges ∧
      (∀ c, (fill_project_experience [p] st).g.cell (38 + st.off + 1) c
        = st.g.cell (38 + st.off + 1) c)) := by
  refine ⟨fun st => rfl, fun st => rfl, ?_, ?_⟩
  · intro st e
    unfold fill_work_experience
    simp only [List.isEmpty_cons, List.length_cons, List.length_nil]
    norm_num
    refine ⟨?_, ?_⟩
    · rw [blankRows5_one, blankRow5_maxRow, writeWorkRows_maxRow]
    · refine ⟨?_, ?_, ?_, ?_, ?_⟩ <;>
        rw [blankRows5_one, blankRow5_cell _ _ _ (by decide),
          writeWorkRows_other _ _ _ _ _ (by simp)]
  · intro st p
    unfold fill_project_experience
    simp only [List.isEmpty_cons, List.length_cons, List.length_nil]
    norm_num
    exact ⟨writeProjRows_maxRow _ _ _, writeProjRows_merges _ _ _,
      fun c => writeProjRows_other _ _ _ _ _ (by simp)⟩

/-- C4 witness: one work entry against the two example rows blanks the
second example row's data columns (style kept); one project entry leaves
the second example row untouched. -/
theorem c4_underfill_blanking_witness :
    (fill_work_experience [⟨none, none, vstr "A", vstr "B", vbool true⟩]
        ⟨exGrid, 0⟩).g.cell 34 3 =
      { exGrid.cell 34 3 with value := vnone } ∧
    (fill_project_experience [⟨none, none, vstr "A", vstr "B", vstr "C", vbool true⟩]
        ⟨exGrid, 0⟩).g.cell 39 2 = exGrid.cell 39 2 := by
  constructor
  · simpa using
      (c4_underfill_blanking.2.2.1 ⟨exGrid, 0⟩
        ⟨none, none, vstr "A", vstr "B", vbool true⟩).2.2 3 (by decide)
  · simpa using
      (c4_underfill_blanking.2.2.2 ⟨exGrid, 0⟩
        ⟨none, none, vstr "A", vstr "B", vstr "C", vbool true⟩).2.2.2 2

/-- C8: a parsed record carrying a top-level `error` key short-circuits
composition: the driver reports failure with the collaborator's payload
and writes neither the parsed-JSON file nor any workbook (no grid is
composed), and the generator's own entry point likewise skips composition
entirely. -/
theorem c8_error_short_circuit (p : Parsed) (tpl : Grid) (e : String)
    (he : p.error = some e) :
    process_after_llm p tpl = ((false, "解析失败: " ++ e), none, none) ∧
    generator_main p tpl = none := by
  constructor
  · rw [process_after_llm, he]
  · rw [generator_main, he]

/-- C8 witness: a concrete errored record short-circuits. -/
theorem c8_error_short_circuit_witness :
    process_after_llm
        ⟨some "API timeout",
         ⟨⟨vnone, vnone⟩, ⟨vnone, none, vnone, none, none, vnone, vnone⟩, [], [], [],
          ⟨vnone, vnone, vnone⟩⟩⟩ blankGrid =
      ((false, "解析失败: API timeout"), none, none) ∧
    generator_main
        ⟨some "API timeout",
         ⟨⟨vnone, vnone⟩, ⟨vnone, none, vnone, none, none, vnone, vnone⟩, [], [], [],
          ⟨vnone, vnone, vnone⟩⟩⟩ blankGrid = none :=
  c8_error_short_circuit _ blankGrid "API timeout" rfl

/-- C3 (grid-model invariant, modelled from the spec's §4.1 contract):
a row insertion at `a` of `cnt` rows maps the merge list elementwise —
every rectangle ending above the insertion row is kept unchanged, every
rectangle starting at or below it is shifted down by exactly `cnt`, and
the relocation is injective, so no rectangle is duplicated or lost. -/
theorem c3_insert_rows_merge_invariant (g : Grid) (a cnt : Nat) :
    (g.insertRows a cnt).merges = g.merges.map (shiftRect a cnt) ∧
    (∀ r, r ∈ g.merges → r.r0 ≤ r.r1 → r.r1 < a →
      shiftRect a cnt r = r ∧ r ∈ (g.insertRows a cnt).merges) ∧
    (∀ r, r ∈ g.merges → a ≤ r.r0 →
      shiftRect a cnt r = ⟨r.r0 + cnt, r.c0, r.r1 + cnt, r.c1⟩ ∧
      (⟨r.r0 + cnt, r.c0, r.r1 + cnt, r.c1⟩ : Rect) ∈ (g.insertRows a cnt).merges) ∧
    (g.insertRows a cnt).merges.length = g.merges.length ∧
    (g.merges.Nodup → (g.insertRows a cnt).merges.Nodup) := by
  have hinj : Function.Injective (shiftRect a cnt) := by
    intro r r' hrr
    unfold shiftRect at hrr
    split at hrr <;> split at hrr <;>
      first
        | exact hrr
        | (cases r; cases r'; simp_all [Rect.mk.injEq]; try omega)
  refine ⟨rfl, ?_, ?_, ?_, ?_⟩
  · intro r hr hwf hlt
    have hs : shiftRect a cnt r = r := by
      unfold shiftRect
      rw [if_neg (by omega)]
    exact ⟨hs, by
      rw [Grid.merges_insertRows]
      exact hs ▸ List.mem_map_of_mem (shiftRect a cnt) hr⟩
  · intro r hr hge
    have hs : shiftRect a cnt r = ⟨r.r0 + cnt, r.c0, r.r1 + cnt, r.c1⟩ := by
      unfold shiftRect
      rw [if_pos hge]
    exact ⟨hs, by
      rw [Grid.merges_insertRows]
      exact hs ▸ List.mem_map_of_mem (shiftRect a cnt) hr⟩
  · rw [Grid.merges_insertRows, List.length_map]
  · intro hnd
    rw [Grid.merges_insertRows]
    exact hnd.map hinj

/-- C3 witness: on a concrete grid with one merge above and one below the
insertion point, the one above is kept and the one below shifts by the
inserted count. -/
theorem c3_insert_rows_merge_invariant_witness :
    (shiftRect 5 9 ⟨2, 1, 3, 6⟩ = ⟨2, 1, 3, 6⟩ ∧
      (⟨2, 1, 3, 6⟩ : Rect) ∈
        ((⟨fun _ _ => defCell, [⟨2, 1, 3, 6⟩, ⟨10, 1, 12, 2⟩], 50⟩ : Grid).insertRows 5 9).merges) ∧
    (shiftRect 5 9 ⟨10, 1, 12, 2⟩ = ⟨19, 1, 21, 2⟩ ∧
      (⟨19, 1, 21, 2⟩ : Rect) ∈
        ((⟨fun _ _ => defCell, [⟨2, 1, 3, 6⟩, ⟨10, 1, 12, 2⟩], 50⟩ : Grid).insertRows 5 9).merges) := by
  constructor
  · exact (c3_insert_rows_merge_invariant
      ⟨fun _ _ => defCell, [⟨2, 1, 3, 6⟩, ⟨10, 1, 12, 2⟩], 50⟩ 5 9).2.1
      ⟨2, 1, 3, 6⟩ (by decide) (by decide) (by decide)
  · exact (c3_insert_rows_merge_invariant
      ⟨fun _ _ => defCell, [⟨2, 1, 3, 6⟩, ⟨10, 1, 12, 2⟩], 50⟩ 5 9).2.2.1
      ⟨10, 1, 12, 2⟩ (by decide) (by decide)

open Value

theorem setVal_ne (g : Grid) (r c : Nat) (v : Value) (r' c' : Nat)
    (h : ¬(r' = r ∧ c' = c)) :
    (g.setVal r c v).cell r' c' = g.cell r' c' := by
  simp [h]

theorem setVal_at (g : Grid) (r c : Nat) (v : Value) (r' c' : Nat)
    (h1 : r' = r) (h2 : c' = c) :
    (g.setVal r c v).cell r' c' = { g.cell r c with value := v } := by
  subst h1; subst h2; simp

theorem docWrite_ne (g : Grid) (r c : Nat) (v : Value) (r' c' : Nat)
    (h : ¬(r' = r ∧ c' = c)) :
    (docWrite g r c v).cell r' c' = g.cell r' c' := by
  unfold docWrite
  split <;> simp [h]

theorem docWrite_value_at (g : Grid) (r c : Nat) (v : Value) (r' c' : Nat)
    (h1 : r' = r) (h2 : c' = c) :
    ((docWrite g r c v).cell r' c').value = docValue v := by
  subst h1; subst h2
  unfold docWrite docValue
  split <;> simp

theorem docWrite_merges (g : Grid) (r c : Nat) (v : Value) :
    (docWrite g r c v).merges = g.merges := by
  unfold docWrite
  split <;> simp

theorem docWrite_maxRow (g : Grid) (r c : Nat) (v : Value) :
    (docWrite g r c v).maxRow = g.maxRow := by
  unfold docWrite
  split <;> simp

theorem copyBlockStyle_other (g : Grid) (src dst cnt : Nat) (r' c' : Nat)
    (h : r' < dst ∨ dst + cnt ≤ r') :
    (copyBlockStyle g src dst cnt).cell r' c' = g.cell r' c' := by
  induction cnt generalizing g src dst with
  | zero => rfl
  | succ k ih =>
    have hne : ¬(r' = dst) := by omega
    have h' : r' < dst + 1 ∨ dst + 1 + k ≤ r' := by omega
    rw [copyBlockStyle, ih _ _ _ h']
    simp [copyRowStyle, hne]

theorem copyBlockStyle_value (g : Grid) (src dst cnt : Nat) (r' c' : Nat) :
    ((copyBlockStyle g src dst cnt).cell r' c').value = (g.cell r' c').value := by
  induction cnt generalizing g src dst with
  | zero => rfl
  | succ k ih => rw [copyBlockStyle, ih, copyRowStyle_value]

theorem copyBlockStyle_merges (g : Grid) (src dst cnt : Nat) :
    (copyBlockStyle g src dst cnt).merges = g.merges := by
  induction cnt generalizing g src dst with
  | zero => rfl
  | succ k ih => rw [copyBlockStyle, ih]; rfl

theorem copyBlockStyle_maxRow (g : Grid) (src dst cnt : Nat) :
    (copyBlockStyle g src dst cnt).maxRow = g.maxRow := by
  induction cnt generalizing g src dst with
  | zero => rfl
  | succ k ih => rw [copyBlockStyle, ih]; rfl

theorem insertRows_below (g : Grid) (a cnt : Nat) (r c : Nat) (h : r < a) :
    (g.insertRows a cnt).cell r c = g.cell r c := by
  simp [Grid.insertRows]
  omega

theorem insertRows_shift (g : Grid) (a cnt : Nat) (r c : Nat) (h : a + cnt ≤ r) :
    (g.insertRows a cnt).cell r c = g.cell (r - cnt) c := by
  simp only [Grid.cell_insertRows]
  rw [if_pos (by omega), if_neg (by omega)]

theorem insert_doctoral_spec (e : EduEntry) (st : Gen) :
    (insert_doctoral_section e st).off = st.off + 9 ∧
    (insert_doctoral_section e st).g.maxRow = st.g.maxRow + 9 ∧
    (∀ r c, r < 31 + st.off →
      (insert_doctoral_section e st).g.cell r c = st.g.cell r c) ∧
    (∀ c, (insert_doctoral_section e st).g.cell (31 + st.off + 9) c
        = st.g.cell (31 + st.off) c) ∧
    ((insert_doctoral_section e st).g.cell (31 + st.off) 1).value = vstr "博士学历" ∧
    ((insert_doctoral_section e st).g.cell (31 + st.off + 1) 1).value = vstr "入学时间" ∧
    ((insert_doctoral_section e st).g.cell (31 + st.off + 1) 2).value
      = docValue (optV (format_date e.enrollment_date)) ∧
    ((insert_doctoral_section e st).g.cell (31 + st.off + 1) 4).value = docValue e.university ∧
    ((insert_doctoral_section e st).g.cell (31 + st.off + 2) 4).value = docValue e.major ∧
    ((insert_doctoral_section e st).g.cell (31 + st.off + 9 + 1) 1).value
      = vstr "工作开始日期（年月日）" ∧
    ((insert_doctoral_section e st).g.cell (31 + st.off + 9 + 1) 5).value
      = vstr "是否邮储银行自主研发工作经验" ∧
    (⟨31 + st.off + 9 + 1, 5, 31 + st.off + 9 + 1, 6⟩ : Rect)
      ∈ (insert_doctoral_section e st).g.merges ∧
    (⟨31 + st.off, 1, 31 + st.off, 6⟩ : Rect) ∈ (insert_doctoral_section e st).g.merges := by
  unfold insert_doctoral_section
  dsimp only
  refine ⟨rfl, ?_, ?_, ?_, ?_, ?_, ?_, ?_, ?_, ?_, ?_, ?_, ?_⟩ <;>
    try intro r c hr
  all_goals
    simp (disch := omega) only [docWrite_ne, docWrite_value_at, docWrite_merges,
      docWrite_maxRow, setVal_ne, setVal_at, copyBlockStyle_other, copyBlockStyle_value,
      copyBlockStyle_merges, copyBlockStyle_maxRow, insertRows_below, insertRows_shift,
      Grid.cell_mergeCells, Grid.merges_mergeCells, Grid.maxRow_mergeCells,
      Grid.merges_setVal, Grid.maxRow_setVal, Grid.maxRow_insertRows,
      Nat.add_sub_cancel, List.mem_append, List.mem_singleton]
  all_goals simp

theorem fill_cell_off_t (st : Gen) (row col : Nat) (v : Value) (ao d : Bool) :
    (fill_cell st row col v ao d).off = st.off := fill_cell_off st row col v ao d

theorem fill_cell_cell_ne (st : Gen) (row col : Nat) (v : Value) (d : Bool)
    (r' c' : Nat) (h : ¬(r' = row + st.off ∧ c' = col)) :
    (fill_cell st row col v true d).g.cell r' c' = st.g.cell r' c' := by
  apply fill_cell_cell_other
  simpa using h

theorem fill_cell_value_at (st : Gen) (row col : Nat) (v : Value) (d : Bool)
    (r' : Nat) (hr : r' = row + st.off) :
    ((fill_cell st row col v true d).g.cell r' col).value =
      fillValue (if d && truthy v then valFormatDate v else v) := by
  subst hr
  simpa using fill_cell_value st row col v true d

theorem fillValue_date (o : Option String) :
    fillValue (if truthy (optV o) = true then valFormatDate (optV o) else optV o) =
      dateFieldValue o := by
  simp [dateFieldValue]

theorem fill_graduate_spec (e : EduEntry) (st : Gen) (lab : Bool) :
    (fill_graduate e lab st).off = st.off ∧
    (fill_graduate e lab st).g.merges = st.g.merges ∧
    (fill_graduate e lab st).g.maxRow = st.g.maxRow ∧
    (∀ r c, r ≠ 22 + st.off → r ≠ 23 + st.off → r ≠ 24 + st.off → r ≠ 25 + st.off →
      r ≠ 26 + st.off → r ≠ 28 + st.off → r ≠ 29 + st.off →
      (fill_graduate e lab st).g.cell r c = st.g.cell r c) ∧
    ((fill_graduate e lab st).g.cell (23 + st.off) 4).value = fillValue e.university ∧
    ((fill_graduate e lab st).g.cell (24 + st.off) 4).value = fillValue e.major ∧
    ((fill_graduate e lab st).g.cell (23 + st.off) 2).value = dateFieldValue e.enrollment_date ∧
    ((fill_graduate e lab st).g.cell (24 + st.off) 2).value = dateFieldValue e.graduation_date ∧
    ((fill_graduate e lab st).g.cell (25 + st.off) 2).value = fillValue e.diploma_number ∧
    ((fill_graduate e lab st).g.cell (26 + st.off) 2).value = fillValue e.diploma_verification_code ∧
    ((fill_graduate e lab st).g.cell (28 + st.off) 2).value = fillValue e.degree_number ∧
    ((fill_graduate e lab st).g.cell (29 + st.off) 2).value = fillValue e.degree_verification_code := by
  unfold fill_graduate
  refine ⟨?_, ?_, ?_, ?_, ?_, ?_, ?_, ?_, ?_, ?_, ?_, ?_⟩ <;>
    try intro r c h22 h23 h24 h25 h26 h28 h29
  all_goals
    by_cases hlab : lab = true <;>
      simp [hlab, fill_cell_off_t, fill_cell_merges, fill_cell_maxRow,
        fill_cell_cell_ne, fill_cell_value_at, fillValue_date, *]

theorem getLast?_cons_or (a : EduEntry) (l : List EduEntry) :
    (a :: l).getLast? = orElseO l.getLast? (some a) := by
  cases l with
  | nil => rfl
  | cons b l' =>
    rw [List.getLast?_cons_cons]
    cases h : (b :: l').getLast? with
    | some x => rfl
    | none => simp [List.getLast?] at h

theorem lastMatching_eq_filter_getLast (p : EduEntry → Bool) (l : List EduEntry) :
    lastMatching p l = (l.filter p).getLast? := by
  induction l with
  | nil => rfl
  | cons e es ih =>
    rw [lastMatching, ih]
    by_cases hp : p e
    · rw [List.filter_cons_of_pos hp, getLast?_cons_or, if_pos hp]
    · rw [List.filter_cons_of_neg hp, if_neg hp]
      cases h : (es.filter p).getLast? <;> rfl

theorem classify_fold_fst (edus : List EduEntry)
    (acc : Option EduEntry × Option EduEntry × Option EduEntry) :
    (edus.foldl classifyStep acc).1 = orElseO (lastMatching isBachelorTier edus) acc.1 := by
  induction edus generalizing acc with
  | nil => rfl
  | cons e es ih =>
    rw [List.foldl_cons, ih, lastMatching]
    cases h : lastMatching isBachelorTier es with
    | some x => rfl
    | none =>
      unfold classifyStep isBachelorTier orElseO
      by_cases hb : hasSub "本科" e.degree_type
      · simp [hb]
      · by_cases hm : hasSub "硕士" e.degree_type
        · simp [hb, hm]
        · by_cases hd : hasSub "博士" e.degree_type <;> simp [hb, hm, hd]

theorem classify_fold_snd (edus : List EduEntry)
    (acc : Option EduEntry × Option EduEntry × Option EduEntry) :
    (edus.foldl classifyStep acc).2.1 = orElseO (lastMatching isMasterTier edus) acc.2.1 := by
  induction edus generalizing acc with
  | nil => rfl
  | cons e es ih =>
    rw [List.foldl_cons, ih, lastMatching]
    cases h : lastMatching isMasterTier es with
    | some x => rfl
    | none =>
      unfold classifyStep isMasterTier orElseO
      by_cases hb : hasSub "本科" e.degree_type
      · simp [hb]
      · by_cases hm : hasSub "硕士" e.degree_type
        · simp [hb, hm]
        · by_cases hd : hasSub "博士" e.degree_type <;> simp [hb, hm, hd]

theorem classify_fold_trd (edus : List EduEntry)
    (acc : Option EduEntry × Option EduEntry × Option EduEntry) :
    (edus.foldl classifyStep acc).2.2 = orElseO (lastMatching isDoctorTier edus) acc.2.2 := by
  induction edus generalizing acc with
  | nil => rfl
  | cons e es ih =>
    rw [List.foldl_cons, ih, lastMatching]
    cases h : lastMatching isDoctorTier es with
    | some x => rfl
    | none =>
      unfold classifyStep isDoctorTier orElseO
      by_cases hb : hasSub "本科" e.degree_type
      · simp [hb]
      · by_cases hm : hasSub "硕士" e.degree_type
        · simp [hb, hm]
        · by_cases hd : hasSub "博士" e.degree_type <;> simp [hb, hm, hd]

theorem orElseO_none (a : Option EduEntry) : orElseO a none = a := by
  cases a <;> rfl

theorem classify_eq_lastMatching (edus : List EduEntry) :
    classify edus =
      ((edus.filter isBachelorTier).getLast?,
       (edus.filter isMasterTier).getLast?,
       (edus.filter isDoctorTier).getLast?) := by
  have h1 := classify_fold_fst edus (none, none, none)
  have h2 := classify_fold_snd edus (none, none, none)
  have h3 := classify_fold_trd edus (none, none, none)
  rw [orElseO_none] at h1 h2 h3
  rw [lastMatching_eq_filter_getLast] at h1 h2 h3
  unfold classify
  exact Prod.ext h1 (Prod.ext h2 h3)

theorem fill_undergraduate_spec (e : EduEntry) (st : Gen) :
    (fill_undergraduate e st).off = st.off ∧
    (fill_undergraduate e st).g.merges = st.g.merges ∧
    (fill_undergraduate e st).g.maxRow = st.g.maxRow ∧
    (∀ r c, r ≠ 14 + st.off → r ≠ 15 + st.off → r ≠ 16 + st.off → r ≠ 17 + st.off →
      r ≠ 19 + st.off → r ≠ 20 + st.off →
      (fill_undergraduate e st).g.cell r c = st.g.cell r c) ∧
    ((fill_undergraduate e st).g.cell (14 + st.off) 4).value = fillValue e.university := by
  unfold fill_undergraduate
  refine ⟨?_, ?_, ?_, ?_, ?_⟩ <;> try intro r c h14 h15 h16 h17 h19 h20
  all_goals
    simp [fill_cell_off_t, fill_cell_merges, fill_cell_maxRow,
      fill_cell_cell_ne, fill_cell_value_at, fillValue_date, *]

/-- Through `fill_education`, the master-tier slot of the classification is
what lands in the advanced-education block (row 23, column 4 holds its
university), whatever else the record contains. -/
theorem fill_education_master_univ (edus : List EduEntry) (st : Gen) (m : EduEntry)
    (hm : (classify edus).2.1 = some m) :
    ((fill_education edus st).g.cell (23 + st.off) 4).value = fillValue m.university := by
  unfold fill_education
  rcases hcs : classify edus with ⟨u, mm, dd⟩
  rw [hcs] at hm
  dsimp only at hm ⊢
  subst hm
  have hgrad : ∀ st' : Gen, st'.off = st.off →
      ((fill_graduate m false st').g.cell (23 + st.off) 4).value = fillValue m.university := by
    intro st' hoff
    have := (fill_graduate_spec m st' false).2.2.2.2.1
    rwa [hoff] at this
  have hoffu : ∀ x : EduEntry, (fill_undergraduate x st).off = st.off :=
    fun x => (fill_undergraduate_spec x st).1
  cases u with
  | some u' =>
    cases dd with
    | none => exact hgrad _ (hoffu u')
    | some d =>
      have hins := (insert_doctoral_spec d (fill_graduate m false (fill_undergraduate u' st))).2.2.1
      rw [hins _ _ (by
        rw [(fill_graduate_spec m (fill_undergraduate u' st) false).1, hoffu u']
        omega)]
      exact hgrad _ (hoffu u')
  | none =>
    cases dd with
    | none => exact hgrad _ (hoffu emptyEdu)
    | some d =>
      have hins := (insert_doctoral_spec d (fill_graduate m false (fill_undergraduate emptyEdu st))).2.2.1
      rw [hins _ _ (by
        rw [(fill_graduate_spec m (fill_undergraduate emptyEdu st) false).1, hoffu emptyEdu]
        omega)]
      exact hgrad _ (hoffu emptyEdu)

theorem fill_basic_info_spec (b : BasicInfo) (st : Gen) :
    (fill_basic_info b st).off = st.off ∧
    (fill_basic_info b st).g.merges = st.g.merges ∧
    (fill_basic_info b st).g.maxRow = st.g.maxRow ∧
    (∀ r c, r ≠ 3 + st.off →
      (fill_basic_info b st).g.cell r c = st.g.cell r c) := by
  unfold fill_basic_info
  refine ⟨?_, ?_, ?_, ?_⟩ <;> try intro r c h3
  all_goals
    simp [fill_cell_off_t, fill_cell_merges, fill_cell_maxRow, fill_cell_cell_ne, *]

theorem fill_personal_info_spec (p : PersonalInfo) (st : Gen) :
    (fill_personal_info p st).off = st.off ∧
    (fill_personal_info p st).g.merges = st.g.merges ∧
    (fill_personal_info p st).g.maxRow = st.g.maxRow ∧
    (∀ r c, r ≠ 5 + st.off → r ≠ 7 + st.off → r ≠ 8 + st.off → r ≠ 9 + st.off →
      r ≠ 10 + st.off → r ≠ 11 + st.off → r ≠ 12 + st.off →
      (fill_personal_info p st).g.cell r c = st.g.cell r c) := by
  unfold fill_personal_info
  refine ⟨?_, ?_, ?_, ?_⟩ <;> try intro r c h5 h7 h8 h9 h10 h11 h12
  all_goals
    simp [fill_cell_off_t, fill_cell_merges, fill_cell_maxRow, fill_cell_cell_ne, *]

/-- When the classification finds both a master and a doctorate,
`fill_education` is the doctoral insertion after the graduate fill. -/
theorem fill_education_eq_both (edus : List EduEntry) (st : Gen) (m dd : EduEntry)
    (hm : (classify edus).2.1 = some m) (hd : (classify edus).2.2 = some dd) :
    fill_education edus st =
      insert_doctoral_section dd (fill_graduate m false
        (match (classify edus).1 with
         | some u => fill_undergraduate u st
         | none => fill_undergraduate emptyEdu st)) := by
  unfold fill_education
  rcases hcs : classify edus with ⟨u, mm, ddd⟩
  rw [hcs] at hm hd
  dsimp only at hm hd ⊢
  subst hm
  subst hd
  rfl

/-- C9: when several education entries classify into the same degree tier,
the classification keeps the last such entry in list order (earlier ones
are overwritten), and it is that last entry whose data is placed in the
tier's slot (here: the advanced block's university cell, row 23 col 4). -/
theorem c9_last_same_tier_wins :
    (∀ edus : List EduEntry,
      classify edus =
        ((edus.filter isBachelorTier).getLast?,
         (edus.filter isMasterTier).getLast?,
         (edus.filter isDoctorTier).getLast?)) ∧
    (∀ (edus : List EduEntry) (st : Gen) (m : EduEntry),
      (edus.filter isMasterTier).getLast? = some m →
        ((fill_education edus st).g.cell (23 + st.off) 4).value = fillValue m.university) := by
  refine ⟨classify_eq_lastMatching, ?_⟩
  intro edus st m hm
  apply fill_education_master_univ
  rw [classify_eq_lastMatching]
  exact hm

/-- C9 witness: with two master-tier entries, the second is kept and its
university is what lands at row 23 column 4. -/
theorem c9_last_same_tier_wins_witness :
    classify [eduM1, eduM2] =
      (([eduM1, eduM2].filter isBachelorTier).getLast?,
       ([eduM1, eduM2].filter isMasterTier).getLast?,
       ([eduM1, eduM2].filter isDoctorTier).getLast?) ∧
    ((fill_education [eduM1, eduM2] blankState).g.cell 23 4).value
      = fillValue eduM2.university := by
  constructor
  · exact c9_last_same_tier_wins.1 [eduM1, eduM2]
  · have := c9_last_same_tier_wins.2 [eduM1, eduM2] blankState eduM2 rfl
    simpa using this

/-- C1 (amended): for a record whose education classifies into both a
master and a doctorate, after the basic-info, personal-info and education
stages (which start at offset 0) the offset is 9; the advanced-education
block (pristine rows 22-29) holds the master's data; a 9-row doctorate
block sits at pristine row 31 (its title row merged A:F, its data from the
doctorate entry); the pre-insertion content of pristine row 31 now sits at
physical row 40; and the work-history column-header labels and the E5:F5
merge are repaired at physical row 41 (pristine row 32 shifted by 9), not
at row 40. -/
theorem c1_master_doctor_block (d : ResumeData) (g : Grid) (m dd : EduEntry)
    (hm : (classify d.education).2.1 = some m)
    (hd : (classify d.education).2.2 = some dd) :
    let st := fill_education d.education
      (fill_personal_info d.personal_info (fill_basic_info d.basic_info ⟨g, 0⟩))
    st.off = 9 ∧
    (st.g.cell 23 4).value = fillValue m.university ∧
    (st.g.cell 24 4).value = fillValue m.major ∧
    (st.g.cell 23 2).value = dateFieldValue m.enrollment_date ∧
    (st.g.cell 31 1).value = vstr "博士学历" ∧
    (st.g.cell 32 2).value = docValue (optV (format_date dd.enrollment_date)) ∧
    (st.g.cell 32 4).value = docValue dd.university ∧
    (⟨31, 1, 31, 6⟩ : Rect) ∈ st.g.merges ∧
    (st.g.cell 41 1).value = vstr "工作开始日期（年月日）" ∧
    (st.g.cell 41 5).value = vstr "是否邮储银行自主研发工作经验" ∧
    (⟨41, 5, 41, 6⟩ : Rect) ∈ st.g.merges ∧
    (∀ c, st.g.cell 40 c = g.cell 31 c) := by
  intro st
  set stp := fill_personal_info d.personal_info (fill_basic_info d.basic_info ⟨g, 0⟩) with hstp
  have hoffb : (fill_basic_info d.basic_info ⟨g, 0⟩).off = 0 :=
    (fill_basic_info_spec d.basic_info ⟨g, 0⟩).1
  have hoffp : stp.off = 0 := by
    rw [hstp, (fill_personal_info_spec _ _).1, hoffb]
  have hst : st = insert_doctoral_section dd (fill_graduate m false
      (match (classify d.education).1 with
       | some u => fill_undergraduate u stp
       | none => fill_undergraduate emptyEdu stp)) :=
    fill_education_eq_both d.education stp m dd hm hd
  -- name the pre-insertion state and collect its offset
  set st1 := (match (classify d.education).1 with
       | some u => fill_undergraduate u stp
       | none => fill_undergraduate emptyEdu stp) with hst1
  have hoff1 : st1.off = 0 := by
    rw [hst1]
    rcases classify d.education with ⟨u, mm, ddd⟩
    cases u <;> simp [fill_undergraduate_spec, hoffp]
  have hcell1 : ∀ c, st1.g.cell 31 c = g.cell 31 c := by
    intro c
    have hcp : stp.g.cell 31 c = g.cell 31 c := by
      rw [hstp]
      rw [(fill_personal_info_spec _ _).2.2.2 31 c
        (by rw [hoffb]; omega) (by rw [hoffb]; omega)
        (by rw [hoffb]; omega) (by rw [hoffb]; omega)
        (by rw [hoffb]; omega) (by rw [hoffb]; omega)
        (by rw [hoffb]; omega)]
      exact (fill_basic_info_spec _ _).2.2.2 31 c (by simp)
    rw [hst1]
    rcases classify d.education with ⟨u, mm, ddd⟩
    cases u with
    | some u' =>
      rw [(fill_undergraduate_spec u' stp).2.2.2.1 31 c
        (by rw [hoffp]; omega) (by rw [hoffp]; omega) (by rw [hoffp]; omega)
        (by rw [hoffp]; omega) (by rw [hoffp]; omega) (by rw [hoffp]; omega)]
      exact hcp
    | none =>
      rw [(fill_undergraduate_spec emptyEdu stp).2.2.2.1 31 c
        (by rw [hoffp]; omega) (by rw [hoffp]; omega) (by rw [hoffp]; omega)
        (by rw [hoffp]; omega) (by rw [hoffp]; omega) (by rw [hoffp]; omega)]
      exact hcp
  have hoff2 : (fill_graduate m false st1).off = 0 := by
    rw [(fill_graduate_spec m st1 false).1, hoff1]
  obtain ⟨hI1, hI2, hI3, hI4, hI5, hI6, hI7, hI8, hI9, hI10, hI11, hI12, hI13⟩ :=
    insert_doctoral_spec dd (fill_graduate m false st1)
  rw [hoff2] at hI3 hI4 hI5 hI7 hI8 hI9 hI10 hI11 hI12 hI13
  norm_num at hI3 hI4 hI5 hI7 hI8 hI9 hI10 hI11 hI12 hI13
  obtain ⟨hG1, hG2, hG3, hG4, hG5, hG6, hG7, hG8, hG9, hG10, hG11, hG12⟩ :=
    fill_graduate_spec m st1 false
  rw [hoff1] at hG4 hG5 hG6 hG7
  norm_num at hG4 hG5 hG6 hG7
  refine ⟨?_, ?_, ?_, ?_, ?_, ?_, ?_, ?_, ?_, ?_, ?_, ?_⟩ <;> rw [hst]
  · rw [hI1, hoff2]
  · rw [hI3 23 4 (by omega), hG5]
  · rw [hI3 24 4 (by omega), hG6]
  · rw [hI3 23 2 (by omega), hG7]
  · exact hI5
  · exact hI7
  · exact hI8
  · exact hI13
  · exact hI10
  · exact hI11
  · exact hI12
  · intro c
    rw [hI4 c, hG4 31 c (by omega) (by omega) (by omega) (by omega) (by omega) (by omega) (by omega)]
    exact hcell1 c

/-- C1 witness: the concrete Master+Doctorate record against the template
grid — offset 9, header labels and E:F merge repaired at physical row 41. -/
theorem c1_master_doctor_block_witness :
    (fill_education recMD.education (fill_personal_info recMD.personal_info
      (fill_basic_info recMD.basic_info ⟨tplMD, 0⟩))).off = 9 ∧
    ((fill_education recMD.education (fill_personal_info recMD.personal_info
      (fill_basic_info recMD.basic_info ⟨tplMD, 0⟩))).g.cell 41 1).value
        = vstr "工作开始日期（年月日）" ∧
    (⟨41, 5, 41, 6⟩ : Rect) ∈ (fill_education recMD.education
      (fill_personal_info recMD.personal_info
        (fill_basic_info recMD.basic_info ⟨tplMD, 0⟩))).g.merges := by
  obtain ⟨h1, h2, h3, h4, h5, h6, h7, h8, h9, h10, h11, h12⟩ :=
    c1_master_doctor_block recMD tplMD mEduW dEduW rfl rfl
  exact ⟨h1, h9, h11⟩

/-- C1 counterexample: the claim as stated places the work-history header,
its label text and the repaired E:F merge at physical row 31+9 = 40; on
the concrete Master+Doctorate record, row 40 holds the shifted section
title, the E:F merge at row 40 does not exist, and the label text plus
E:F merge are at physical row 41 instead. -/
theorem c1_header_row_counterexample :
    ((fill_education recMD.education (fill_personal_info recMD.personal_info
      (fill_basic_info recMD.basic_info ⟨tplMD, 0⟩))).g.cell 40 1).value
        = vstr "工作经历" ∧
    "工作经历" ≠ "工作开始日期（年月日）" ∧
    (⟨40, 5, 40, 6⟩ : Rect) ∉ (fill_education recMD.education
      (fill_personal_info recMD.personal_info
        (fill_basic_info recMD.basic_info ⟨tplMD, 0⟩))).g.merges ∧
    (⟨41, 5, 41, 6⟩ : Rect) ∈ (fill_education recMD.education
      (fill_personal_info recMD.personal_info
        (fill_basic_info recMD.basic_info ⟨tplMD, 0⟩))).g.merges ∧
    ((fill_education recMD.education (fill_personal_info recMD.personal_info
      (fill_basic_info recMD.basic_info ⟨tplMD, 0⟩))).g.cell 41 1).value
        = vstr "工作开始日期（年月日）" := by
  refine ⟨rfl, by decide, by decide, by decide, rfl⟩

theorem writeWorkRows_col_other (g : Grid) (row : Nat) (l : List WorkEntry)
    (r' c' : Nat) (h : c' ∉ ([1, 2, 3, 4, 5] : List Nat)) :
    (writeWorkRows g row l).cell r' c' = g.cell r' c' := by
  induction l generalizing g row with
  | nil => rfl
  | cons e es ih =>
    rw [writeWorkRows, ih, writeWorkRow_col_other _ _ _ _ _ h]

theorem writeProjRow_col_other (g : Grid) (row : Nat) (e : ProjEntry) (r' c' : Nat)
    (h : c' ∉ ([1, 2, 3, 4, 5, 6] : List Nat)) :
    (writeProjRow g row e).cell r' c' = g.cell r' c' := by
  have h1 : c' ≠ 1 := by intro hv; exact h (by rw [hv]; decide)
  have h2 : c' ≠ 2 := by intro hv; exact h (by rw [hv]; decide)
  have h3 : c' ≠ 3 := by intro hv; exact h (by rw [hv]; decide)
  have h4 : c' ≠ 4 := by intro hv; exact h (by rw [hv]; decide)
  have h5 : c' ≠ 5 := by intro hv; exact h (by rw [hv]; decide)
  have h6 : c' ≠ 6 := by intro hv; exact h (by rw [hv]; decide)
  rw [writeProjRow, hlIfPH_col_other _ _ _ _ _ h]
  simp [h1, h2, h3, h4, h5, h6]

theorem writeProjRows_col_other (g : Grid) (row : Nat) (l : List ProjEntry)
    (r' c' : Nat) (h : c' ∉ ([1, 2, 3, 4, 5, 6] : List Nat)) :
    (writeProjRows g row l).cell r' c' = g.cell r' c' := by
  induction l generalizing g row with
  | nil => rfl
  | cons e es ih =>
    rw [writeProjRows, ih, writeProjRow_col_other _ _ _ _ _ h]

theorem writeWorkRows_value (g : Grid) (row : Nat) (l : List WorkEntry)
    (i : Nat) (e : WorkEntry) (hi : l.get? i = some e) (c : Nat)
    (hc : c ∈ [1, 2, 3, 4, 5]) :
    ((writeWorkRows g row l).cell (row + i) c).value = workColVal e c := by
  rw [writeWorkRows_cell g row l i e hi c hc]
  split <;> simp

theorem writeProjRows_value (g : Grid) (row : Nat) (l : List ProjEntry)
    (i : Nat) (e : ProjEntry) (hi : l.get? i = some e) (c : Nat)
    (hc : c ∈ [1, 2, 3, 4, 5, 6]) :
    ((writeProjRows g row l).cell (row + i) c).value = projColVal e c := by
  rw [writeProjRows_cell g row l i e hi c hc]
  split <;> simp

/-- C2 (amended): for a repeating section with more items than the two
pre-authored example rows — here both the work-history section (data start
`R = 33 + offset`) and the project-history section (`R = 38 + offset`) —
the filler inserts exactly `N − 2` rows at `R + 2`, copies the style of
the row at `R` (the FIRST pre-authored example row, not the last) into
each inserted row, advances the offset by exactly `N − 2` before any later
section resolves an anchor, populates all `N` rows, and everything that
was at or below `R + 2` moves down by exactly `N − 2` rows. -/
theorem c2_row_expansion (work : List WorkEntry) (proj : List ProjEntry) (st sp : Gen)
    (hw : 2 < work.length) (hp : 2 < proj.length) :
    ((fill_work_experience work st).off = st.off + (work.length - 2) ∧
     (fill_work_experience work st).g.maxRow = st.g.maxRow + (work.length - 2) ∧
     (∀ i c, i < work.length - 2 → 6 ≤ c → c ≤ 15 →
       ((fill_work_experience work st).g.cell (33 + st.off + 2 + i) c).style
         = (st.g.cell (33 + st.off) c).style) ∧
     (∀ i e, work.get? i = some e →
       ((fill_work_experience work st).g.cell (33 + st.off + i) 3).value
         = valueOr e.company) ∧
     (∀ r c, 33 + st.off + 2 ≤ r →
       (fill_work_experience work st).g.cell (r + (work.length - 2)) c = st.g.cell r c)) ∧
    ((fill_project_experience proj sp).off = sp.off + (proj.length - 2) ∧
     (fill_project_experience proj sp).g.maxRow = sp.g.maxRow + (proj.length - 2) ∧
     (∀ i c, i < proj.length - 2 → 7 ≤ c → c ≤ 15 →
       ((fill_project_experience proj sp).g.cell (38 + sp.off + 2 + i) c).style
         = (sp.g.cell (38 + sp.off) c).style) ∧
     (∀ i e, proj.get? i = some e →
       ((fill_project_experience proj sp).g.cell (38 + sp.off + i) 3).value
         = valueOr e.project_name)) := by
  constructor
  · have hne : work.isEmpty = false := by
      cases work with
      | nil => simp at hw
      | cons e es => rfl
    have hextra : 0 < work.length - 2 := by omega
    have hnlt : ¬(work.length < 2) := by omega
    unfold fill_work_experience
    rw [if_neg (by simp [hne])]
    try dsimp only
    rw [if_pos hextra, if_neg hnlt]
    try dsimp only
    refine ⟨rfl, ?_, ?_, ?_, ?_⟩
    · rw [writeWorkRows_maxRow]
      try dsimp only
      rw [copyStyleRows_maxRow]
      rfl
    · intro i c hi hc6 hc15
      rw [writeWorkRows_col_other _ _ _ _ _ (by intro hm; fin_cases hm <;> omega)]
      try dsimp only
      rw [copyStyleRows_target _ _ _ _ _ _ (by omega) hi (by omega) hc15
        (by rw [Grid.cell_insertRows, if_pos (by omega), if_pos (by omega)]; rfl)]
      rw [insertRows_below _ _ _ _ _ (by omega)]
    · intro i e hi
      rw [writeWorkRows_value _ _ _ i e hi 3 (by decide)]
      rfl
    · intro r c hr
      rw [writeWorkRows_other _ _ _ _ _ (by right; omega)]
      try dsimp only
      rw [copyStyleRows_other _ _ _ _ _ _ (by right; omega)]
      rw [insertRows_shift _ _ _ _ _ (by omega), Nat.add_sub_cancel]
  · have hne : proj.isEmpty = false := by
      cases proj with
      | nil => simp at hp
      | cons e es => rfl
    have hextra : 0 < proj.length - 2 := by omega
    unfold fill_project_experience
    rw [if_neg (by simp [hne])]
    try dsimp only
    rw [if_pos hextra]
    try dsimp only
    refine ⟨rfl, ?_, ?_, ?_⟩
    · rw [writeProjRows_maxRow]
      try dsimp only
      rw [copyStyleRows_maxRow]
      rfl
    · intro i c hi hc7 hc15
      rw [writeProjRows_col_other _ _ _ _ _ (by intro hm; fin_cases hm <;> omega)]
      try dsimp only
      rw [copyStyleRows_target _ _ _ _ _ _ (by omega) hi (by omega) hc15
        (by rw [Grid.cell_insertRows, if_pos (by omega), if_pos (by omega)]; rfl)]
      rw [insertRows_below _ _ _ _ _ (by omega)]
    · intro i e hi
      rw [writeProjRows_value _ _ _ i e hi 3 (by decide)]
      rfl

/-- C2 witness: 5 work entries against the 2-row template — 3 rows
inserted, offset increases by 3, all 5 rows populated (shown for the
company column of the fifth row); a 3-entry project list advances the
offset by 1. -/
theorem c2_row_expansion_witness :
    (fill_work_experience [weC "A", weC "B", weC "C", weC "D", weC "E"] ⟨tplC2, 0⟩).off
      = 0 + 3 ∧
    ((fill_work_experience [weC "A", weC "B", weC "C", weC "D", weC "E"]
      ⟨tplC2, 0⟩).g.cell 37 3).value = valueOr (weC "E").company ∧
    (fill_project_experience [peC "X", peC "Y", peC "Z"] ⟨tplC2, 0⟩).off = 0 + 1 := by
  obtain ⟨⟨hw1, hw2, hw3, hw4, hw5⟩, hp1, hp2⟩ :=
    c2_row_expansion [weC "A", weC "B", weC "C", weC "D", weC "E"]
      [peC "X", peC "Y", peC "Z"] ⟨tplC2, 0⟩ ⟨tplC2, 0⟩ (by decide) (by decide)
  refine ⟨hw1, ?_, hp1⟩
  simpa using hw4 4 (weC "E") rfl

/-- C2 counterexample: the claim says each inserted row receives the style
of the row at `R + K − 1` (the last pre-authored example row, 34); on a
template whose two example rows have different styles and three work
entries, the inserted physical row 35 carries the style of row 33 (the
first example row), not that of row 34. -/
theorem c2_style_source_counterexample :
    (tplC2.cell 33 1).style = some ⟨1, 1, 1⟩ ∧
    (tplC2.cell 34 1).style = some ⟨2, 2, 2⟩ ∧
    ((fill_work_experience [weC "A", weC "B", weC "C"] ⟨tplC2, 0⟩).g.cell 35 1).style
      = some ⟨1, 1, 1⟩ ∧
    some (⟨1, 1, 1⟩ : Style) ≠ some ⟨2, 2, 2⟩ := by
  refine ⟨rfl, rfl, rfl, by decide⟩

theorem digit_not_space (c : Char) (h : c.isDigit = true) : isSpaceC c = false := by
  revert h
  unfold isSpaceC Char.isDigit
  intro h
  simp only [Bool.or_eq_false_iff, decide_eq_false_iff_not]
  refine ⟨⟨⟨⟨⟨?_, ?_⟩, ?_⟩, ?_⟩, ?_⟩, ?_⟩ <;>
    (intro he; subst he; simp at h)

theorem dropWhile_all_false (f : Char → Bool) (l : List Char)
    (h : ∀ c ∈ l, f c = false) : l.dropWhile f = l := by
  cases l with
  | nil => rfl
  | cons a l =>
    rw [List.dropWhile_cons, if_neg]
    rw [h a (List.mem_cons_self a l)]
    simp

theorem stripChars_of_no_space (l : List Char)
    (h : ∀ c ∈ l, isSpaceC c = false) : stripChars l = l := by
  unfold stripChars
  rw [dropWhile_all_false _ _ h,
    dropWhile_all_false _ _ (fun c hc => h c (List.mem_reverse.mp hc)),
    List.reverse_reverse]

theorem takeDigs_append (l : List Char) : (takeDigs l).1 ++ (takeDigs l).2 = l := by
  induction l with
  | nil => rfl
  | cons c cs ih =>
    rw [takeDigs]
    split
    · simpa using ih
    · rfl

theorem takeDigs_digits (l : List Char) : ∀ c ∈ (takeDigs l).1, c.isDigit = true := by
  induction l with
  | nil => intro c hc; cases hc
  | cons a cs ih =>
    rw [takeDigs]
    split
    · next hd =>
      intro c hc
      rcases List.mem_cons.mp hc with h | h
      · exact h ▸ hd
      · exact ih c h
    · intro c hc; cases hc

theorem mYMD_shape (l : List Char) (h : mYMD l = true) :
    ∃ a b c d e f g' h', l = [a, b, c, d, '-', e, f, '-', g', h'] ∧
      a.isDigit = true ∧ b.isDigit = true ∧ c.isDigit = true ∧ d.isDigit = true ∧
      e.isDigit = true ∧ f.isDigit = true ∧ g'.isDigit = true ∧ h'.isDigit = true := by
  unfold mYMD at h
  split at h
  · next a b c d h1 e f h2 g' h' =>
    simp only [Bool.and_eq_true, decide_eq_true_eq] at h
    refine ⟨a, b, c, d, e, f, g', h', ?_, ?_, ?_, ?_, ?_, ?_, ?_, ?_, ?_⟩ <;> simp_all
  · cases h

theorem mYM_shape (l : List Char) (h : mYM l = true) :
    ∃ a b c d e f, l = [a, b, c, d, '-', e, f] ∧
      a.isDigit = true ∧ b.isDigit = true ∧ c.isDigit = true ∧ d.isDigit = true ∧
      e.isDigit = true ∧ f.isDigit = true := by
  unfold mYM at h
  split at h
  · next a b c d h1 e f =>
    simp only [Bool.and_eq_true, decide_eq_true_eq] at h
    refine ⟨a, b, c, d, e, f, ?_, ?_, ?_, ?_, ?_, ?_, ?_⟩ <;> simp_all
  · cases h

theorem mYM1_shape (l : List Char) (h : mYM1 l = true) :
    ∃ a b c d e, l = [a, b, c, d, '-', e] ∧
      a.isDigit = true ∧ b.isDigit = true ∧ c.isDigit = true ∧ d.isDigit = true ∧
      e.isDigit = true := by
  unfold mYM1 at h
  split at h
  · next a b c d h1 e =>
    simp only [Bool.and_eq_true, decide_eq_true_eq] at h
    refine ⟨a, b, c, d, e, ?_, ?_, ?_, ?_, ?_, ?_⟩ <;> simp_all
  · cases h

theorem mY_shape (l : List Char) (h : mY l = true) :
    ∃ a b c d, l = [a, b, c, d] ∧
      a.isDigit = true ∧ b.isDigit = true ∧ c.isDigit = true ∧ d.isDigit = true := by
  unfold mY at h
  split at h
  · next a b c d =>
    simp only [Bool.and_eq_true] at h
    refine ⟨a, b, c, d, rfl, ?_, ?_, ?_, ?_⟩ <;> simp_all
  · cases h

theorem mYMD_len (l : List Char) (h : mYMD l = true) : l.length = 10 := by
  obtain ⟨a, b, c, d, e, f, g', h', hl, -⟩ := mYMD_shape l h
  rw [hl]; rfl

theorem mYM_len (l : List Char) (h : mYM l = true) : l.length = 7 := by
  obtain ⟨a, b, c, d, e, f, hl, -⟩ := mYM_shape l h
  rw [hl]; rfl

theorem mYM1_len (l : List Char) (h : mYM1 l = true) : l.length = 6 := by
  obtain ⟨a, b, c, d, e, hl, -⟩ := mYM1_shape l h
  rw [hl]; rfl

theorem mY_len (l : List Char) (h : mY l = true) : l.length = 4 := by
  obtain ⟨a, b, c, d, hl, -⟩ := mY_shape l h
  rw [hl]; rfl

theorem neq_of_len (p : List Char → Bool) (q : List Char → Bool)
    (np nq : Nat) (hp : ∀ l, p l = true → l.length = np)
    (hq : ∀ l, q l = true → l.length = nq) (hne : np ≠ nq)
    (l : List Char) (h : p l = true) : q l = false := by
  by_contra hcon
  have hq' : q l = true := by
    cases hqv : q l
    · exact absurd hqv hcon
    · rfl
  exact hne ((hp l h).symm.trans (hq l hq'))

theorem parseCN_shape (l y m : List Char) (dd : Option (List Char))
    (h : parseCN l = some (y, m, dd)) :
    (∀ c ∈ y, c.isDigit = true) ∧ y.length = 4 ∧
    (∀ c ∈ m, c.isDigit = true) ∧ (m.length = 1 ∨ m.length = 2) ∧
    ((dd = none ∧ l = y ++ '年' :: (m ++ ['月'])) ∨
     (∃ d suf, dd = some d ∧ (∀ c ∈ d, c.isDigit = true) ∧
       (d.length = 1 ∨ d.length = 2) ∧ (suf = [] ∨ suf = ['日']) ∧
       l = y ++ '年' :: (m ++ '月' :: (d ++ suf)))) := by
  unfold parseCN at h
  dsimp only at h
  split at h
  case isFalse => cases h
  case isTrue hy =>
    split at h
    case h_2 => cases h
    case h_1 r2 heq2 =>
      split at h
      case isFalse => cases h
      case isTrue hm =>
        split at h
        case h_2 => cases h
        case h_1 r4 heq4 =>
          have hly : l = (takeDigs l).1 ++ '年' :: r2 := by
            conv_lhs => rw [← takeDigs_append l]
            rw [heq2]
          have hr2m : r2 = (takeDigs r2).1 ++ '月' :: r4 := by
            conv_lhs => rw [← takeDigs_append r2]
            rw [heq4]
          split at h
          case h_1 =>
            -- r4 = [], month-only form
            injection h with h
            injection h with hy' h
            injection h with hm' hd'
            subst hy'
            subst hm'
            subst hd'
            refine ⟨takeDigs_digits l, hy, takeDigs_digits r2, by simpa using hm, Or.inl ⟨rfl, ?_⟩⟩
            conv_lhs => rw [hly]
            conv_lhs => rw [hr2m]
          case h_2 c0 cs0 =>
            split at h
            case isFalse => cases h
            case isTrue hdg =>
              injection h with h
              injection h with hy' h
              injection h with hm' hd'
              subst hy'
              subst hm'
              subst hd'
              simp only [Bool.and_eq_true, Bool.or_eq_true, decide_eq_true_eq,
                List.isEmpty_iff] at hdg
              have hr4d : (c0 :: cs0 : List Char) = (takeDigs (c0 :: cs0)).1 ++ (takeDigs (c0 :: cs0)).2 :=
                (takeDigs_append _).symm
              refine ⟨takeDigs_digits l, hy, takeDigs_digits r2, by simpa using hm,
                Or.inr ⟨(takeDigs (c0 :: cs0)).1, (takeDigs (c0 :: cs0)).2, rfl,
                  takeDigs_digits _, hdg.1, hdg.2, ?_⟩⟩
              conv_lhs => rw [hly]
              conv_lhs => rw [hr2m]
              conv_lhs => rw [hr4d]

theorem len_four_shape : ∀ (l : List Char), l.length = 4 → ∃ a b c d, l = [a, b, c, d]
  | [], h => by simp at h
  | [a], h => by simp at h
  | [a, b], h => by simp at h
  | [a, b, c], h => by simp at h
  | [a, b, c, d], _ => ⟨a, b, c, d, rfl⟩
  | a :: b :: c :: d :: e :: l, h => by
    simp only [List.length_cons] at h
    omega

theorem zfill2_shape (m : List Char) (hd : ∀ c ∈ m, c.isDigit = true)
    (hl : m.length = 1 ∨ m.length = 2) :
    ∃ p q, zfill2 m = [p, q] ∧ p.isDigit = true ∧ q.isDigit = true := by
  rcases hl with h1 | h2
  · obtain ⟨a, ha⟩ := List.length_eq_one.mp h1
    subst ha
    exact ⟨'0', a, rfl, by decide, hd a (by simp)⟩
  · obtain ⟨a, b, hab⟩ := List.length_eq_two.mp h2
    subst hab
    exact ⟨a, b, rfl, hd a (by simp), hd b (by simp)⟩

theorem fmtCore_of_mYMD (l : List Char) (h : mYMD l = true) : fmtCore l = l := by
  unfold fmtCore
  rw [if_pos h]

theorem matchers_false_of_yen (l y rest : List Char) (hy : y.length = 4)
    (hl : l = y ++ '年' :: rest) :
    mYMD l = false ∧ mYM l = false ∧ mYM1 l = false ∧ mY l = false := by
  obtain ⟨a, b, c, d, hy4⟩ := len_four_shape y hy
  subst hy4
  refine ⟨?_, ?_, ?_, ?_⟩
  · cases hcon : mYMD l
    · rfl
    · obtain ⟨a', b', c', d', e', f', g', h'', hl', -⟩ := mYMD_shape l hcon
      rw [hl] at hl'
      simp at hl'
  · cases hcon : mYM l
    · rfl
    · obtain ⟨a', b', c', d', e', f', hl', -⟩ := mYM_shape l hcon
      rw [hl] at hl'
      simp at hl'
  · cases hcon : mYM1 l
    · rfl
    · obtain ⟨a', b', c', d', e', hl', -⟩ := mYM1_shape l hcon
      rw [hl] at hl'
      simp at hl'
  · cases hcon : mY l
    · rfl
    · obtain ⟨a', b', c', d', hl', -⟩ := mY_shape l hcon
      rw [hl] at hl'
      simp at hl'

theorem d0 : ('0' : Char).isDigit = true := by decide

theorem d1 : ('1' : Char).isDigit = true := by decide

theorem fmtCore_canonical (l : List Char) (h : recognized l = true) :
    mYMD (fmtCore l) = true := by
  unfold recognized at h
  simp only [Bool.or_eq_true] at h
  rcases h with ((((h | h) | h) | h) | h)
  · rw [fmtCore_of_mYMD l h]
    exact h
  · obtain ⟨a, b, c, d, e, f, hl, ha, hb, hc, hd, he, hf⟩ := mYM_shape l h
    have hnd : mYMD l = false :=
      neq_of_len mYM mYMD 7 10 mYM_len mYMD_len (by decide) l h
    unfold fmtCore
    rw [if_neg (by simp [hnd]), if_pos h]
    subst hl
    simp [mYMD, ha, hb, hc, hd, he, hf, d0, d1]
  · obtain ⟨a, b, c, d, e, hl, ha, hb, hc, hd, he⟩ := mYM1_shape l h
    have hn1 : mYMD l = false :=
      neq_of_len mYM1 mYMD 6 10 mYM1_len mYMD_len (by decide) l h
    have hn2 : mYM l = false :=
      neq_of_len mYM1 mYM 6 7 mYM1_len mYM_len (by decide) l h
    unfold fmtCore
    rw [if_neg (by simp [hn1]), if_neg (by simp [hn2]), if_pos h]
    subst hl
    simp [mYMD, ha, hb, hc, hd, he, d0, d1]
  · obtain ⟨a, b, c, d, hl, ha, hb, hc, hd⟩ := mY_shape l h
    have hn1 : mYMD l = false :=
      neq_of_len mY mYMD 4 10 mY_len mYMD_len (by decide) l h
    have hn2 : mYM l = false :=
      neq_of_len mY mYM 4 7 mY_len mYM_len (by decide) l h
    have hn3 : mYM1 l = false :=
      neq_of_len mY mYM1 4 6 mY_len mYM1_len (by decide) l h
    unfold fmtCore
    rw [if_neg (by simp [hn1]), if_neg (by simp [hn2]), if_neg (by simp [hn3]), if_pos h]
    subst hl
    simp [mYMD, ha, hb, hc, hd, d0, d1]
  · cases hp : parseCN l with
    | none => rw [hp] at h; simp at h
    | some v =>
    obtain ⟨y, m, dd⟩ := v
    obtain ⟨hydig, hylen, hmdig, hmlen, hrest⟩ := parseCN_shape l y m dd hp
    have hdecomp : ∃ rest, l = y ++ '年' :: rest := by
      rcases hrest with ⟨-, hl⟩ | ⟨dL, suf, -, -, -, -, hl⟩
      · exact ⟨_, hl⟩
      · exact ⟨_, hl⟩
    obtain ⟨rest, hldec⟩ := hdecomp
    obtain ⟨hn1, hn2, hn3, hn4⟩ := matchers_false_of_yen l y rest hylen hldec
    obtain ⟨ya, yb, yc, yd, hy4⟩ := len_four_shape y hylen
    obtain ⟨p, q, hpq, hp', hq'⟩ := zfill2_shape m hmdig hmlen
    unfold fmtCore
    rw [if_neg (by simp [hn1]), if_neg (by simp [hn2]), if_neg (by simp [hn3]),
      if_neg (by simp [hn4]), hp]
    rcases hrest with ⟨hdd, -⟩ | ⟨dL, suf, hdd, hddig, hdlen, -, -⟩
    · subst hdd
      dsimp only
      rw [hy4, hpq]
      simp only [List.append_assoc, List.cons_append, List.nil_append]
      simp [mYMD, hydig ya (by rw [hy4]; simp), hydig yb (by rw [hy4]; simp),
        hydig yc (by rw [hy4]; simp), hydig yd (by rw [hy4]; simp), hp', hq', d0, d1]
    · subst hdd
      obtain ⟨r, s, hrs, hr', hs'⟩ := zfill2_shape dL hddig hdlen
      dsimp only
      rw [hy4, hpq, hrs]
      simp only [List.append_assoc, List.cons_append, List.nil_append]
      simp [mYMD, hydig ya (by rw [hy4]; simp), hydig yb (by rw [hy4]; simp),
        hydig yc (by rw [hy4]; simp), hydig yd (by rw [hy4]; simp), hp', hq', hr', hs', d0, d1]

theorem fmtCore_idem (l : List Char) (h : recognized l = true) :
    fmtCore (fmtCore l) = fmtCore l :=
  fmtCore_of_mYMD _ (fmtCore_canonical l h)

theorem dash_not_space : isSpaceC '-' = false := by decide

theorem mYMD_no_space (l : List Char) (h : mYMD l = true) :
    ∀ c ∈ l, isSpaceC c = false := by
  obtain ⟨a, b, c, d, e, f, g', h'', hl, ha, hb, hc, hd, he, hf, hg, hh⟩ := mYMD_shape l h
  subst hl
  intro x hx
  simp only [List.mem_cons, List.not_mem_nil, or_false] at hx
  rcases hx with rfl | rfl | rfl | rfl | rfl | rfl | rfl | rfl | rfl | rfl
  · exact digit_not_space _ ha
  · exact digit_not_space _ hb
  · exact digit_not_space _ hc
  · exact digit_not_space _ hd
  · exact dash_not_space
  · exact digit_not_space _ he
  · exact digit_not_space _ hf
  · exact dash_not_space
  · exact digit_not_space _ hg
  · exact digit_not_space _ hh

theorem recognized_no_space (l : List Char) (h : recognized l = true) :
    ∀ c ∈ l, isSpaceC c = false := by
  unfold recognized at h
  simp only [Bool.or_eq_true] at h
  rcases h with ((((h | h) | h) | h) | h)
  · exact mYMD_no_space l h
  · obtain ⟨a, b, c, d, e, f, hl, ha, hb, hc, hd, he, hf⟩ := mYM_shape l h
    subst hl
    intro x hx
    simp only [List.mem_cons, List.not_mem_nil, or_false] at hx
    rcases hx with rfl | rfl | rfl | rfl | rfl | rfl | rfl
    · exact digit_not_space _ ha
    · exact digit_not_space _ hb
    · exact digit_not_space _ hc
    · exact digit_not_space _ hd
    · exact dash_not_space
    · exact digit_not_space _ he
    · exact digit_not_space _ hf
  · obtain ⟨a, b, c, d, e, hl, ha, hb, hc, hd, he⟩ := mYM1_shape l h
    subst hl
    intro x hx
    simp only [List.mem_cons, List.not_mem_nil, or_false] at hx
    rcases hx with rfl | rfl | rfl | rfl | rfl | rfl
    · exact digit_not_space _ ha
    · exact digit_not_space _ hb
    · exact digit_not_space _ hc
    · exact digit_not_space _ hd
    · exact dash_not_space
    · exact digit_not_space _ he
  · obtain ⟨a, b, c, d, hl, ha, hb, hc, hd⟩ := mY_shape l h
    subst hl
    intro x hx
    simp only [List.mem_cons, List.not_mem_nil, or_false] at hx
    rcases hx with rfl | rfl | rfl | rfl
    · exact digit_not_space _ ha
    · exact digit_not_space _ hb
    · exact digit_not_space _ hc
    · exact digit_not_space _ hd
  · cases hp : parseCN l with
    | none => rw [hp] at h; simp at h
    | some v =>
      obtain ⟨y, m, dd⟩ := v
      obtain ⟨hydig, hylen, hmdig, hmlen, hrest⟩ := parseCN_shape l y m dd hp
      intro x hx
      rcases hrest with ⟨-, hl⟩ | ⟨dL, suf, -, hddig, -, hsuf, hl⟩
      · rw [hl] at hx
        simp only [List.mem_append, List.mem_cons, List.not_mem_nil, or_false] at hx
        rcases hx with hx | hx | hx | hx
        · exact digit_not_space _ (hydig x hx)
        · subst hx; decide
        · exact digit_not_space _ (hmdig x hx)
        · subst hx; decide
      · rw [hl] at hx
        simp only [List.mem_append, List.mem_cons, List.not_mem_nil, or_false] at hx
        rcases hx with hx | hx | hx | hx | hx | hx
        · exact digit_not_space _ (hydig x hx)
        · subst hx; decide
        · exact digit_not_space _ (hmdig x hx)
        · subst hx; decide
        · exact digit_not_space _ (hddig x hx)
        · rcases hsuf with hs | hs
          · rw [hs] at hx; cases hx
          · rw [hs] at hx
            simp only [List.mem_cons, List.not_mem_nil, or_false] at hx
            subst hx; decide

theorem recognized_ne_nil (l : List Char) (h : recognized l = true) : l ≠ [] := by
  intro he
  subst he
  cases h

/-- C6: every date string matching a recognized pattern is rewritten to
the canonical `YYYY-MM-DD` shape, and the normalizer is idempotent on it —
at the character-list core and lifted to `_format_date` on strings. -/
theorem c6_normalizer_canonical_idempotent :
    (∀ l : List Char, recognized l = true →
      mYMD (fmtCore l) = true ∧ fmtCore (fmtCore l) = fmtCore l) ∧
    (∀ s : String, recognized s.data = true →
      format_date (some s) = some (String.mk (fmtCore s.data)) ∧
      mYMD (String.mk (fmtCore s.data)).data = true ∧
      format_date (format_date (some s)) = format_date (some s)) := by
  constructor
  · exact fun l h => ⟨fmtCore_canonical l h, fmtCore_idem l h⟩
  · intro s hrec
    have hstrip : stripChars s.data = s.data :=
      stripChars_of_no_space _ (recognized_no_space _ hrec)
    have hne : s.data ≠ [] := recognized_ne_nil _ hrec
    have h1 : format_date (some s) = some (String.mk (fmtCore s.data)) := by
      unfold format_date
      dsimp only
      rw [hstrip, if_neg (by simpa [List.isEmpty_iff] using hne)]
    refine ⟨h1, fmtCore_canonical s.data hrec, ?_⟩
    rw [h1]
    have hmymd := fmtCore_canonical s.data hrec
    have hstrip2 : stripChars (fmtCore s.data) = fmtCore s.data :=
      stripChars_of_no_space _ (mYMD_no_space _ hmymd)
    have hne2 : fmtCore s.data ≠ [] := fmtCore_ne_nil _ hne
    unfold format_date
    dsimp only
    rw [hstrip2, if_neg (by simpa [List.isEmpty_iff] using hne2)]
    rw [fmtCore_of_mYMD _ hmymd]

/-- C6 witness: the localized form `2020年3月` is recognized, normalizes to
the canonical shape, and renormalizing is a fixed point. -/
theorem c6_normalizer_canonical_idempotent_witness :
    recognized ("2020年3月".data) = true ∧
    (format_date (some "2020年3月") = some (String.mk (fmtCore "2020年3月".data)) ∧
     mYMD (String.mk (fmtCore "2020年3月".data)).data = true ∧
     format_date (format_date (some "2020年3月")) = format_date (some "2020年3月")) :=
  ⟨by decide, c6_normalizer_canonical_idempotent.2 "2020年3月" (by decide)⟩

theorem fmtCore_unrecognized (l : List Char) (h : recognized l = false) :
    fmtCore l = l := by
  unfold recognized at h
  simp only [Bool.or_eq_false_iff] at h
  obtain ⟨⟨⟨⟨h1, h2⟩, h3⟩, h4⟩, h5⟩ := h
  unfold fmtCore
  rw [if_neg (by simp [h1]), if_neg (by simp [h2]), if_neg (by simp [h3]),
    if_neg (by simp [h4])]
  cases hp : parseCN l with
  | none => rfl
  | some v => rw [hp] at h5; simp at h5

/-- C7 (amended): an absent input or one that strips to nothing yields the
absent value (not a string); a non-blank input matching no recognized
pattern is returned stripped of surrounding whitespace but otherwise
unchanged (so unchanged whenever it has no surrounding whitespace); the
normalizer is a total function. -/
theorem c7_absent_and_passthrough :
    format_date none = none ∧
    (∀ s : String, (stripChars s.data).isEmpty = true → format_date (some s) = none) ∧
    (∀ s : String, (stripChars s.data).isEmpty = false →
      recognized (stripChars s.data) = false →
      format_date (some s) = some (String.mk (stripChars s.data))) := by
  refine ⟨rfl, ?_, ?_⟩
  · intro s hs
    unfold format_date
    dsimp only
    rw [if_pos hs]
  · intro s h1 h2
    unfold format_date
    dsimp only
    rw [if_neg (by simp [h1]), fmtCore_unrecognized _ h2]

/-- C7 witness: a blank input yields the absent value; an unrecognized
non-blank input is passed through (stripped). -/
theorem c7_absent_and_passthrough_witness :
    format_date (some "  ") = none ∧
    format_date (some " abc? ") = some (String.mk (stripChars (" abc? ").data)) :=
  ⟨c7_absent_and_passthrough.2.1 "  " (by decide),
   c7_absent_and_passthrough.2.2 " abc? " (by decide) (by decide)⟩

/-- C7 counterexample: the claim says an unrecognized non-blank input is
returned as the original text unchanged; the code strips first, so the
non-blank unrecognized input `" x@ "` comes back as `"x@"`, not itself. -/
theorem c7_strip_counterexample :
    format_date (some " x@ ") = some "x@" ∧
    some ("x@" : String) ≠ some (" x@ " : String) ∧
    (stripChars (" x@ ").data).isEmpty = false ∧
    recognized (stripChars (" x@ ").data) = false := by
  exact ⟨by decide, by decide, by decide, by decide⟩

end Resume
